import Mathlib

/-!
# Invoice generator: the request handler and its page layout

A shallow embedding of `main.go`: the data model (`InvoiceData`, `RowData`), the
number formatting the handler asks of `fmt.Sprintf`, the sequence of calls it makes
on the PDF surface, and the calls it makes on the response writer and the file
system.  The PDF library, `net/http`, `encoding/json`, `os` and `uuid` are external
collaborators: every call made on them is recorded, in call order, and what they
hand back (decode result, working directory, file identifier, clock, I/O errors) is
an input of the model.
-/

namespace Invoice

/-! ## Numbers as Go prints them -/

/-- Decimal digits of `n`, most significant first, pushed in front of `ds`; the loop
of `fmt` for the verb `%d`, with `fuel` bounding the number of digits. -/
def toDigitsCore : Nat → Nat → List Char → List Char
  | 0, _, ds => ds
  | fuel + 1, n, ds =>
    if n / 10 = 0 then Nat.digitChar (n % 10) :: ds
    else toDigitsCore fuel (n / 10) (Nat.digitChar (n % 10) :: ds)

/-- Decimal digits of a natural number (`"0"` for zero, no sign, no separators). -/
def natDigits (n : Nat) : List Char := toDigitsCore (n + 1) n []

/-- The text of `fmt.Sprintf("%d", q)` for an `int64` value `q`: a `-` for a negative
value, then the decimal digits of its magnitude. -/
def sprintfD (q : Int) : String :=
  String.mk ((if q < 0 then ['-'] else []) ++ natDigits q.natAbs)

/-- A finite `float64`: sign, integer significand and binary exponent, denoting
`(-1)^neg * mant * 2^exp`.  These are the values `encoding/json` stores in a
`float64` field (it rejects literals that are not finite numbers); a negative zero
has `neg = true` and `mant = 0`.  Every `float64` is of this form; the width of the
significand and the range of the exponent are not bounded here, so what holds of all
values of this type holds of all finite `float64` values. -/
structure Float64 where
  neg : Bool
  mant : Nat
  exp : Int
  deriving DecidableEq, Repr

namespace Float64

/-- Go's comparison `x != 0`: both zeros compare equal to `0`. -/
def neZero (x : Float64) : Bool := x.mant != 0

/-- The exact value denoted by a `float64`. -/
def toRat (x : Float64) : ℚ :=
  (if x.neg then -1 else 1) *
    (match x.exp with
     | Int.ofNat k => (x.mant : ℚ) * 2 ^ k
     | Int.negSucc k => (x.mant : ℚ) / 2 ^ (k + 1))

end Float64

/-- Quotient `a / b` rounded to the nearest integer, a tie going to the even
neighbour: the rounding `strconv` applies to the exact decimal expansion. -/
def roundHalfEven (a b : Nat) : Nat :=
  let q := a / b
  let r := a % b
  if 2 * r < b then q
  else if b < 2 * r then q + 1
  else if q % 2 = 0 then q else q + 1

/-- Magnitude of `x` in hundredths, rounded to nearest, ties to even. -/
def hundredths (x : Float64) : Nat :=
  match x.exp with
  | Int.ofNat k => x.mant * 100 * 2 ^ k
  | Int.negSucc k => roundHalfEven (x.mant * 100) (2 ^ (k + 1))

/-- The text of `fmt.Sprintf("%.2f", x)`: sign (kept for a negative zero), integer
part, a point and two fraction digits. -/
def sprintfF2 (x : Float64) : String :=
  String.mk ((if x.neg then ['-'] else []) ++ natDigits (hundredths x / 100) ++
    ['.', Nat.digitChar (hundredths x % 100 / 10), Nat.digitChar (hundredths x % 10)])

/-- The value `time.Now()` as far as the handler uses it: the calendar date in the
local time zone. -/
structure Time where
  Year : Nat
  Month : Nat
  Day : Nat
  deriving DecidableEq, Repr

/-- Decimal digits of `x`, padded with leading zeros to `width` (`appendInt` of
package `time`). -/
def appendInt (x width : Nat) : List Char :=
  List.replicate (width - (natDigits x).length) '0' ++ natDigits x

/-- The text of `t.Format("2006-01-02")`. -/
def Time.Format (t : Time) : String :=
  String.mk (appendInt t.Year 4 ++ ['-'] ++ appendInt t.Month 2 ++ ['-'] ++ appendInt t.Day 2)

/-! ## Paths -/

/-- The components of a path: the pieces between slashes. -/
def splitSlash : List Char → List (List Char)
  | [] => [[]]
  | c :: cs =>
    if c = '/' then [] :: splitSlash cs
    else match splitSlash cs with
      | [] => [[c]]
      | x :: xs => (c :: x) :: xs

/-- One component of a path taken by `filepath.Clean`; `stack` holds the components
kept so far, the last one first. -/
def cleanStep (rooted : Bool) (stack : List (List Char)) (comp : List Char) :
    List (List Char) :=
  if comp = [] ∨ comp = ['.'] then stack
  else if comp = ['.', '.'] then
    match stack with
    | top :: rest => if top = ['.', '.'] then comp :: stack else rest
    | [] => if rooted then [] else [comp]
  else comp :: stack

/-- Components joined by single slashes. -/
def joinSlash : List (List Char) → List Char
  | [] => []
  | [x] => x
  | x :: y :: rest => x ++ '/' :: joinSlash (y :: rest)

/-- The function `filepath.Clean` on a Unix path: repeated slashes, `.` components
and resolvable `..` components removed; the empty relative path is `.`. -/
def Clean (path : String) : String :=
  let rooted : Bool := path.data.head? = some '/'
  let body := joinSlash ((splitSlash path.data).foldl (cleanStep rooted) []).reverse
  if rooted then String.mk ('/' :: body)
  else if body = [] then "." else String.mk body

/-- The function `filepath.Join`: empty elements dropped, the rest joined by slashes
and cleaned. -/
def Join (elem : List String) : String :=
  match elem.filter (fun e => e ≠ "") with
  | [] => ""
  | e :: es => Clean (String.intercalate "/" (e :: es))

/-- Whether a path is absolute. -/
def IsAbs (path : String) : Bool := path.data.head? = some '/'

/-- The walk the kernel makes along the components of a path, starting in the
directory `cur`.  A location is the list of names that leads to it from the root
without passing a symbolic link; `links` gives, for each location that is a symbolic
link, the location it points to.  An empty component and `.` stay in place, `..` goes
to the parent of the directory reached so far, a name enters it and follows the link
if it is one. -/
def walk (links : List (List String × List String)) : List String → List String → List String
  | cur, [] => cur
  | cur, c :: cs =>
    if c = "" ∨ c = "." then walk links cur cs
    else if c = ".." then walk links cur.dropLast cs
    else match links.lookup (cur ++ [c]) with
      | some target => walk links target cs
      | none => walk links (cur ++ [c]) cs

/-- The location a path names for a process whose working directory is the location
`cwd`: an absolute path is walked from the root, a relative one from `cwd`. -/
def resolve (links : List (List String × List String)) (cwd : List String) (path : String) :
    List String :=
  walk links (if IsAbs path then [] else cwd) ((splitSlash path.data).map String.mk)

/-! ## Data model -/

/-- One line item of an invoice. -/
structure RowData where
  Name : String
  Quantity : Int
  Rate : Float64
  Amount : Float64
  deriving DecidableEq, Repr

/-- The decoded request body. -/
structure InvoiceData where
  InvoiceNumber : Int
  IssuedDate : String
  DueDate : String
  ClientName : String
  ClientAddress : String
  ClientCityStateZip : String
  YourName : String
  YourAddress : String
  YourCityStateZip : String
  Rows : List RowData
  SubTotal : Float64
  Discount : Float64
  Tax : Float64
  Total : Float64
  Note : String
  deriving DecidableEq, Repr

/-! ## The drawing surface -/

/-- A call made on the `*fpdf.Fpdf` value. -/
inductive Call where
  | AddUTF8Font (familyStr styleStr fileStr : String)
  | SetMargins (left top right : Nat)
  | SetCellMargin (margin : Nat)
  | AddPage
  | SetFont (familyStr styleStr : String) (size : Nat)
  | SetTextColor (r g b : Nat)
  | SetFillColor (r g b : Nat)
  | Cell (w h : Nat) (txtStr : String)
  | CellFormat (w h : Nat) (txtStr borderStr : String) (ln : Nat) (alignStr : String)
      (fill : Bool) (link : Nat) (linkStr : String)
  | Ln (h : Nat)
  deriving DecidableEq, Repr

/-- The document under construction: the arguments of `fpdf.New` and the calls made
on it since, in call order. -/
structure Fpdf where
  orientationStr : String
  unitStr : String
  sizeStr : String
  fontDirStr : String
  calls : List Call
  deriving DecidableEq, Repr

namespace Fpdf

/-- The constructor `fpdf.New`. -/
def New (orientationStr unitStr sizeStr fontDirStr : String) : Fpdf :=
  ⟨orientationStr, unitStr, sizeStr, fontDirStr, []⟩

/-- Record one call. -/
def call (pdf : Fpdf) (c : Call) : Fpdf := { pdf with calls := pdf.calls ++ [c] }

end Fpdf

/-- The function `addInvoiceItem`: four cells and a line advance. -/
def addInvoiceItem (pdf : Fpdf) (item : String) (quantity : Int) (rate amount : Float64) :
    Fpdf :=
  let pdf := pdf.call (.Cell 90 10 item)
  let pdf := pdf.call (.Cell 30 10 (sprintfD quantity))
  let pdf := pdf.call (.Cell 40 10 ("$" ++ sprintfF2 rate))
  let pdf := pdf.call (.Cell 40 10 ("$" ++ sprintfF2 amount))
  pdf.call (.Ln 10)

/-- The drawing part of `generateInvoice` (from `fpdf.New` to the notes line): the
document built for `invoiceData` when the working directory is `currentDir` and the
clock reads `now`.  It is the document of every run that gets past `os.Getwd`. -/
def renderInvoice (currentDir : String) (now : Time) (invoiceData : InvoiceData) : Fpdf :=
  let pdf := Fpdf.New "P" "mm" "A4" (Join [currentDir, "assets", "fonts"])
  let pdf := pdf.call (.AddUTF8Font "Outfit" "" "Outfit-Regular.ttf")
  let pdf := pdf.call (.AddUTF8Font "Outfit" "B" "Outfit-SemiBold.ttf")
  let pdf := pdf.call (.SetMargins 5 10 5)
  let pdf := pdf.call (.SetCellMargin 5)
  let pdf := pdf.call .AddPage
  let pdf := pdf.call (.SetFont "Outfit" "" 28)
  let pdf := pdf.call (.SetTextColor 50 60 50)
  let pdf := pdf.call (.Cell 100 10 ("INVOICE #" ++ sprintfD invoiceData.InvoiceNumber))
  let pdf := pdf.call (.Ln 10)
  let pdf := pdf.call (.SetFont "Outfit" "B" 12)
  let pdf :=
    if invoiceData.IssuedDate ≠ "" then
      pdf.call (.Cell 100 10 ("Issued : " ++ invoiceData.IssuedDate))
    else
      pdf.call (.Cell 100 10 ("Issued : " ++ now.Format))
  let pdf := pdf.call (.Ln 8)
  let pdf :=
    if invoiceData.DueDate ≠ "" then
      pdf.call (.Cell 100 10 ("Due : " ++ invoiceData.DueDate))
    else
      pdf.call (.Cell 100 10 "Due : On Receipt")
  let pdf := pdf.call (.Ln 20)
  let pdf := pdf.call (.Cell 100 10 "BILL TO :")
  let pdf := pdf.call (.Cell 100 10 "PAY TO :")
  let pdf := pdf.call (.Ln 8)
  let pdf := pdf.call (.SetFont "Outfit" "" 12)
  let pdf := pdf.call (.Cell 100 10 invoiceData.ClientName)
  let pdf := pdf.call (.Cell 100 10 invoiceData.YourName)
  let pdf := pdf.call (.Ln 8)
  let pdf := pdf.call (.Cell 100 10 invoiceData.ClientAddress)
  let pdf := pdf.call (.Cell 100 10 invoiceData.YourAddress)
  let pdf := pdf.call (.Ln 8)
  let pdf := pdf.call (.Cell 100 10 invoiceData.ClientCityStateZip)
  let pdf := pdf.call (.Cell 100 10 invoiceData.YourCityStateZip)
  let pdf := pdf.call (.Ln 24)
  let pdf := pdf.call (.SetFont "Outfit" "B" 12)
  let pdf := pdf.call (.SetFillColor 0 0 0)
  let pdf := pdf.call (.SetTextColor 255 255 255)
  let pdf := pdf.call (.CellFormat 90 10 "Items" "" 0 "" true 0 "")
  let pdf := pdf.call (.CellFormat 30 10 "Qty" "" 0 "" true 0 "")
  let pdf := pdf.call (.CellFormat 40 10 "Rate" "" 0 "" true 0 "")
  let pdf := pdf.call (.CellFormat 40 10 "Amount" "" 0 "" true 0 "")
  let pdf := pdf.call (.Ln 10)
  let pdf := pdf.call (.SetFont "Outfit" "" 12)
  let pdf := pdf.call (.SetTextColor 0 0 0)
  let pdf := invoiceData.Rows.foldl
    (fun pdf row => addInvoiceItem pdf row.Name row.Quantity row.Rate row.Amount) pdf
  let pdf := pdf.call (.Ln 10)
  let pdf := pdf.call (.Cell 120 10 "")
  let pdf := pdf.call (.SetFont "Outfit" "B" 12)
  let pdf := pdf.call (.CellFormat 40 10 "SubTotal" "" 0 "" false 0 "")
  let pdf := pdf.call (.SetFont "Outfit" "" 12)
  let pdf := pdf.call (.CellFormat 40 10 ("$" ++ sprintfF2 invoiceData.SubTotal) "" 0 "" false 0 "")
  let pdf := pdf.call (.Ln 10)
  let pdf :=
    if invoiceData.Discount.neZero then
      let pdf := pdf.call (.Cell 120 10 "")
      let pdf := pdf.call (.SetFont "Outfit" "B" 12)
      let pdf := pdf.call (.CellFormat 40 10 "Discount" "" 0 "" false 0 "")
      let pdf := pdf.call (.SetFont "Outfit" "" 12)
      let pdf := pdf.call
        (.CellFormat 40 10 (sprintfF2 invoiceData.Discount ++ " %") "" 0 "" false 0 "")
      pdf.call (.Ln 10)
    else pdf
  let pdf :=
    if invoiceData.Tax.neZero then
      let pdf := pdf.call (.Cell 120 10 "")
      let pdf := pdf.call (.SetFont "Outfit" "B" 12)
      let pdf := pdf.call (.CellFormat 40 10 "Tax" "" 0 "" false 0 "")
      let pdf := pdf.call (.SetFont "Outfit" "" 12)
      let pdf := pdf.call
        (.CellFormat 40 10 (sprintfF2 invoiceData.Tax ++ " %") "" 0 "" false 0 "")
      pdf.call (.Ln 10)
    else pdf
  let pdf := pdf.call (.Cell 120 10 "")
  let pdf := pdf.call (.SetFont "Outfit" "B" 12)
  let pdf := pdf.call (.CellFormat 40 10 "Total" "" 0 "" false 0 "")
  let pdf := pdf.call (.SetFont "Outfit" "" 12)
  let pdf := pdf.call (.CellFormat 40 10 ("$" ++ sprintfF2 invoiceData.Total) "" 0 "" false 0 "")
  let pdf := pdf.call (.Ln 20)
  let pdf := pdf.call (.SetFont "Outfit" "B" 12)
  let pdf := pdf.call (.Cell 20 10 "Notes: ")
  let pdf := pdf.call (.SetFont "Outfit" "" 12)
  pdf.call (.Cell 180 10 invoiceData.Note)

/-! ## The request handler -/

/-- A call the handler makes on the response writer, the file system, the standard
output or another collaborator, apart from the drawing calls. -/
inductive Event where
  | HeaderSet (key value : String)
  | WriteHeader (statusCode : Nat)
  | HttpError (error : String) (code : Nat)
  | NewString
  | Decode
  | Getwd
  | Println (line : String)
  | OutputFileAndClose (fileStr : String)
  | ServeFile (name : String)
  | Remove (name : String)
  deriving DecidableEq, Repr

/-- What the collaborators hand to one run of the handler. -/
structure Env where
  /-- The field `r.Method`. -/
  Method : String
  /-- The result of `uuid.NewString()`. -/
  fileID : String
  /-- The result of decoding `r.Body` into an `InvoiceData`. -/
  decoded : Except String InvoiceData
  /-- The result of `os.Getwd()`. -/
  getwd : Except String String
  /-- The result of `time.Now()`. -/
  now : Time
  /-- The error of `pdf.OutputFileAndClose`, if any. -/
  outputErr : Option String
  /-- The error of `os.Remove`, if any. -/
  removeErr : Option String

/-- One run of the handler: the calls it made, in order, and the document it drew
(`none` when `fpdf.New` was never reached). -/
structure Run where
  events : List Event
  pdf : Option Fpdf
  deriving DecidableEq, Repr

/-- The function `enableCors`; `w` is the list of calls made so far. -/
def enableCors (w : List Event) : List Event :=
  let w := w ++ [.HeaderSet "Access-Control-Allow-Origin" "*"]
  let w := w ++ [.HeaderSet "Access-Control-Allow-Methods" "GET, POST, OPTIONS"]
  w ++ [.HeaderSet "Access-Control-Allow-Headers" "Content-Type"]

/-- The function `generateInvoice`: the calls made on the collaborators, in order,
with the early returns of the source; the drawing calls, which sit between `os.Getwd`
and the printing of the note, are those of `renderInvoice`. -/
def generateInvoice (env : Env) : Run :=
  let w := enableCors []
  if env.Method = "OPTIONS" then
    ⟨w ++ [.WriteHeader 200], none⟩
  else
    let w := w ++ [.NewString]
    let fileID := env.fileID
    let w := w ++ [.Decode]
    match env.decoded with
    | .error err => ⟨w ++ [.HttpError err 400], none⟩
    | .ok invoiceData =>
      let w := w ++ [.Getwd]
      match env.getwd with
      | .error err =>
        ⟨w ++ [.Println ("Error getting current working directory: " ++ err)], none⟩
      | .ok currentDir =>
        let pdf := renderInvoice currentDir env.now invoiceData
        let w := w ++ [.Println invoiceData.Note]
        let w := w ++ [.OutputFileAndClose (Join [currentDir, fileID ++ ".pdf"])]
        let w :=
          match env.outputErr with
          | some err => w ++ [.Println ("Error: " ++ err)]
          | none => w ++ [.Println "Invoice created successfully"]
        let pdfPath := Join [fileID ++ ".pdf"]
        let w := w ++ [.HeaderSet "Content-Type" "application/pdf"]
        let w := w ++ [.HeaderSet "Content-Disposition" "attachment; filename=invoice.pdf"]
        let w := w ++ [.ServeFile pdfPath]
        let w := w ++ [.Remove pdfPath]
        let w :=
          match env.removeErr with
          | some err => w ++ [.Println ("Error deleting PDF file: " ++ err)]
          | none => w ++ [.Println "Invoice file deleted successfully"]
        ⟨w, some pdf⟩

/-! ## What the client receives -/

/-- The header map after `Set key value`. -/
def headerSet (h : List (String × String)) (key value : String) : List (String × String) :=
  (key, value) :: h.filter (fun kv => kv.1 ≠ key)

/-- What `http.Error` does to the header map before it writes the status line. -/
def errorHeader (h : List (String × String)) : List (String × String) :=
  headerSet (headerSet (h.filter (fun kv => kv.1 ≠ "Content-Length"))
    "Content-Type" "text/plain; charset=utf-8") "X-Content-Type-Options" "nosniff"

/-- The header map the handler has built when the response starts: the map as it
stands at the first call that writes the response, or at the return of the handler
when nothing is written; `h` is the map so far.  For `http.Error` the keys it sets
itself are included.  What `http.ServeFile` does to the map it is handed (the headers
it adds for the file, or the `Content-Type` of its own error reply when it cannot open
the file) is not part of it; it leaves the CORS keys alone. -/
def responseHeader (h : List (String × String)) : List Event → List (String × String)
  | [] => h
  | .HeaderSet key value :: es => responseHeader (headerSet h key value) es
  | .WriteHeader _ :: _ => h
  | .HttpError _ _ :: _ => errorHeader h
  | .ServeFile _ :: _ => h
  | _ :: es => responseHeader h es

/-- How the status line of the response comes about. -/
inductive Status where
  /-- The handler named the code (`WriteHeader`, `http.Error`). -/
  | explicit (code : Nat)
  /-- The handler returned without writing: `net/http` answers `200 OK`. -/
  | implicitOK
  /-- The code is chosen by `http.ServeFile` from what it finds at the path. -/
  | byServeFile
  deriving DecidableEq, Repr

/-- The status of the response. -/
def responseStatus : List Event → Status
  | [] => .implicitOK
  | .WriteHeader code :: _ => .explicit code
  | .HttpError _ code :: _ => .explicit code
  | .ServeFile _ :: _ => .byServeFile
  | _ :: es => responseStatus es

/-- A piece of the response body. -/
inductive BodyPart where
  /-- The message `http.Error` writes (as one line of plain text). -/
  | errorText (error : String)
  /-- What `http.ServeFile` writes for a path: the content of the file, or its own
  error reply when it cannot open the file. -/
  | file (name : String)
  deriving DecidableEq, Repr

/-- The body of the response. -/
def responseBody : List Event → List BodyPart
  | [] => []
  | .HttpError error _ :: es => .errorText error :: responseBody es
  | .ServeFile name :: es => .file name :: responseBody es
  | _ :: es => responseBody es

/-- The calls on the file system, in call order. -/
def fileOps (es : List Event) : List Event :=
  es.filter (fun e =>
    match e with
    | .OutputFileAndClose _ => true
    | .ServeFile _ => true
    | .Remove _ => true
    | _ => false)

/-! ## Reading numbers back -/

/-- The number a list of decimal digits denotes when read after the digits of `acc`;
`none` when a character is not a digit. -/
def parseDigits : List Char → Nat → Option Nat
  | [], acc => some acc
  | c :: cs, acc =>
    if c.isDigit then parseDigits cs (acc * 10 + (c.toNat - 48)) else none

/-- The natural number a non-empty list of decimal digits denotes. -/
def parseNat (cs : List Char) : Option Nat :=
  if cs = [] then none else parseDigits cs 0

/-- The integer a decimal numeral denotes: an optional leading `-`, then digits. -/
def parseInt (s : String) : Option Int :=
  if s.data.head? = some '-' then (parseNat s.data.tail).map (fun (n : Nat) => -(n : Int))
  else (parseNat s.data).map (fun (n : Nat) => (n : Int))

/-- The rational number a decimal numeral denotes: an optional leading `-`, digits,
and optionally a point followed by digits. -/
def decimalValue (s : String) : Option ℚ :=
  let neg : Bool := s.data.head? = some '-'
  let cs := if neg then s.data.tail else s.data
  let sign : ℚ := if neg then -1 else 1
  match parseNat (cs.takeWhile (fun c => c ≠ '.')), cs.dropWhile (fun c => c ≠ '.') with
  | some i, [] => some (sign * i)
  | some i, _ :: fr =>
    match parseNat fr with
    | some f => some (sign * (i + (f : ℚ) / 10 ^ fr.length))
    | none => none
  | none, _ => none

/-! ## Reading the drawn page -/

/-- The four cells of the table header, as `generateInvoice` draws them. -/
def tableHeader : List Call :=
  [.CellFormat 90 10 "Items" "" 0 "" true 0 "", .CellFormat 30 10 "Qty" "" 0 "" true 0 "",
   .CellFormat 40 10 "Rate" "" 0 "" true 0 "", .CellFormat 40 10 "Amount" "" 0 "" true 0 ""]

/-- The calls that draw one table row. -/
def rowCalls (r : RowData) : List Call :=
  [.Cell 90 10 r.Name, .Cell 30 10 (sprintfD r.Quantity), .Cell 40 10 ("$" ++ sprintfF2 r.Rate),
   .Cell 40 10 ("$" ++ sprintfF2 r.Amount), .Ln 10]

/-- Whether a call draws a cell with a filled background. -/
def Call.isFilled : Call → Bool
  | .CellFormat _ _ _ _ _ _ fill _ _ => fill
  | _ => false

/-- The width of the cell a call draws. -/
def Call.width? : Call → Option Nat
  | .Cell w _ _ => some w
  | .CellFormat w _ _ _ _ _ _ _ _ => some w
  | _ => none

/-- Number of calls made on the document before the first table row. -/
def rowsStart : Nat := 37

/-- The totals block of a page that has `rows` table rows: the calls after the last
row up to the line advance that opens the notes. -/
def totalsBlock (calls : List Call) (rows : Nat) : List Call :=
  (calls.drop (rowsStart + 5 * rows)).takeWhile (fun c => c ≠ Call.Ln 20)

/-- The lines of a totals block, each a label and its value: a cell drawn with
`CellFormat` in bold is a label, the next cell drawn with `CellFormat` in the regular
style is its value.  `bold` tells whether the font style is bold at the start and
`label` is the label still waiting for its value.  A label that gets no value is not
listed here; `labelsOf` lists every label. -/
def totalsLines : Bool → Option String → List Call → List (String × String)
  | _, _, [] => []
  | _, label, .SetFont _ styleStr _ :: cs => totalsLines (styleStr == "B") label cs
  | bold, label, .CellFormat _ _ txtStr _ _ _ _ _ _ :: cs =>
    if bold then totalsLines bold (some txtStr) cs
    else match label with
      | some l => (l, txtStr) :: totalsLines bold none cs
      | none => totalsLines bold none cs
  | bold, label, _ :: cs => totalsLines bold label cs

/-- The texts of the cells drawn while the font style is bold, whichever call draws
them: in a totals block these are its labels.  `bold` tells whether the style is bold
at the start. -/
def labelsOf : Bool → List Call → List String
  | _, [] => []
  | _, .SetFont _ styleStr _ :: cs => labelsOf (styleStr == "B") cs
  | bold, .Cell _ _ txtStr :: cs =>
    if bold then txtStr :: labelsOf bold cs else labelsOf bold cs
  | bold, .CellFormat _ _ txtStr _ _ _ _ _ _ :: cs =>
    if bold then txtStr :: labelsOf bold cs else labelsOf bold cs
  | bold, _ :: cs => labelsOf bold cs

/-- The calls made before the first row. -/
def beforeRows (now : Time) (d : InvoiceData) : List Call :=
  [.AddUTF8Font "Outfit" "" "Outfit-Regular.ttf", .AddUTF8Font "Outfit" "B" "Outfit-SemiBold.ttf",
   .SetMargins 5 10 5, .SetCellMargin 5, .AddPage, .SetFont "Outfit" "" 28,
   .SetTextColor 50 60 50, .Cell 100 10 ("INVOICE #" ++ sprintfD d.InvoiceNumber), .Ln 10,
   .SetFont "Outfit" "B" 12,
   .Cell 100 10 ("Issued : " ++ if d.IssuedDate ≠ "" then d.IssuedDate else now.Format), .Ln 8,
   .Cell 100 10 ("Due : " ++ if d.DueDate ≠ "" then d.DueDate else "On Receipt"), .Ln 20,
   .Cell 100 10 "BILL TO :", .Cell 100 10 "PAY TO :", .Ln 8, .SetFont "Outfit" "" 12,
   .Cell 100 10 d.ClientName, .Cell 100 10 d.YourName, .Ln 8,
   .Cell 100 10 d.ClientAddress, .Cell 100 10 d.YourAddress, .Ln 8,
   .Cell 100 10 d.ClientCityStateZip, .Cell 100 10 d.YourCityStateZip, .Ln 24,
   .SetFont "Outfit" "B" 12, .SetFillColor 0 0 0, .SetTextColor 255 255 255] ++ tableHeader ++
  [.Ln 10, .SetFont "Outfit" "" 12, .SetTextColor 0 0 0]

/-- The line of the totals block for a percentage. -/
def percentLine (label : String) (x : Float64) : List Call :=
  [.Cell 120 10 "", .SetFont "Outfit" "B" 12, .CellFormat 40 10 label "" 0 "" false 0 "",
   .SetFont "Outfit" "" 12, .CellFormat 40 10 (sprintfF2 x ++ " %") "" 0 "" false 0 "", .Ln 10]

/-- The calls of the totals block. -/
def totalsCalls (subTotal discount tax total : Float64) : List Call :=
  [.Ln 10, .Cell 120 10 "", .SetFont "Outfit" "B" 12,
   .CellFormat 40 10 "SubTotal" "" 0 "" false 0 "", .SetFont "Outfit" "" 12,
   .CellFormat 40 10 ("$" ++ sprintfF2 subTotal) "" 0 "" false 0 "", .Ln 10] ++
  (if discount.neZero then percentLine "Discount" discount else []) ++
  (if tax.neZero then percentLine "Tax" tax else []) ++
  [.Cell 120 10 "", .SetFont "Outfit" "B" 12, .CellFormat 40 10 "Total" "" 0 "" false 0 "",
   .SetFont "Outfit" "" 12, .CellFormat 40 10 ("$" ++ sprintfF2 total) "" 0 "" false 0 ""]

/-- The calls that draw the notes. -/
def notesCalls (note : String) : List Call :=
  [.Ln 20, .SetFont "Outfit" "B" 12, .Cell 20 10 "Notes: ", .SetFont "Outfit" "" 12,
   .Cell 180 10 note]

/-- A cell text shows the value of `x` as a percentage: a decimal numeral that
denotes `x`, followed by a blank and a percent sign. -/
def ShowsPercent (cell : String) (x : Float64) : Prop :=
  ∃ s : String, cell = s ++ " %" ∧ decimalValue s = some x.toRat

/-- A numeral with exactly two decimals: an optional `-`, at least one digit, a
point, two digits. -/
def TwoDecimals (s : String) : Prop :=
  ∃ (sign ip : List Char) (d₁ d₂ : Char), s.data = sign ++ ip ++ ['.', d₁, d₂] ∧
    (sign = [] ∨ sign = ['-']) ∧ ip ≠ [] ∧ (∀ c ∈ ip, c.isDigit = true) ∧
    d₁.isDigit = true ∧ d₂.isDigit = true

/-- The line printed after `pdf.OutputFileAndClose`. -/
def outputLine : Option String → String
  | some err => "Error: " ++ err
  | none => "Invoice created successfully"

/-- The line printed after `os.Remove`. -/
def removeLine : Option String → String
  | some err => "Error deleting PDF file: " ++ err
  | none => "Invoice file deleted successfully"

/-! ## Sample inputs -/

/-- The invoice `{"InvoiceNumber":1,"Rows":[{"Name":"Widget","Quantity":2,"Rate":5.00,
"Amount":10.00}],"SubTotal":10,"Total":10}`: one row, no discount, no tax, no dates. -/
def widgetInvoice : InvoiceData :=
  ⟨1, "", "", "", "", "", "", "", "",
    [⟨"Widget", 2, ⟨false, 5, 0⟩, ⟨false, 10, 0⟩⟩], ⟨false, 10, 0⟩, ⟨false, 0, 0⟩,
    ⟨false, 0, 0⟩, ⟨false, 10, 0⟩, ""⟩

/-- An invoice whose discount is 0.0625, which is `1 * 2^(-4)`. -/
def sixteenthDiscount : InvoiceData :=
  ⟨1, "", "", "", "", "", "", "", "", [], ⟨false, 10, 0⟩, ⟨false, 1, -4⟩, ⟨false, 0, 0⟩,
    ⟨false, 10, 0⟩, ""⟩

/-- An invoice whose discount is 10 and whose tax is 7.5, which is `15 * 2^(-1)`. -/
def tenDiscount : InvoiceData :=
  ⟨1, "", "", "", "", "", "", "", "", [], ⟨false, 10, 0⟩, ⟨false, 10, 0⟩, ⟨false, 15, -1⟩,
    ⟨false, 10, 0⟩, ""⟩

/-- An invoice with one row whose amount (999) is not quantity times rate and does
not add up to the subtotal (10); the tax is -5. -/
def oddRows : InvoiceData :=
  ⟨7, "2026-01-31", "", "", "", "", "", "", "",
    [⟨"Widget", 2, ⟨false, 5, 0⟩, ⟨false, 999, 0⟩⟩], ⟨false, 10, 0⟩, ⟨false, 0, 0⟩,
    ⟨true, 5, 0⟩, ⟨false, 10, 0⟩, "thanks"⟩

/-- An invoice with the totals of `oddRows` and no rows. -/
def noRows : InvoiceData :=
  ⟨8, "", "", "", "", "", "", "", "", [], ⟨false, 10, 0⟩, ⟨false, 0, 0⟩, ⟨true, 5, 0⟩,
    ⟨false, 10, 0⟩, ""⟩

/-- A request whose body is not JSON. -/
def badBody : Env :=
  ⟨"POST", "0b5e7c1a-6f0d-4c56-9d55-3f1f6f0a2b9e", .error "unexpected end of JSON input",
    .ok "/srv/app", ⟨2026, 11, 4⟩, none, none⟩

/-- A valid request served from a directory the process cannot write to: the output
step fails, and so does the removal of the file that was never written. -/
def outputFails : Env :=
  ⟨"POST", "0b5e7c1a-6f0d-4c56-9d55-3f1f6f0a2b9e", .ok widgetInvoice, .ok "/srv/app",
    ⟨2026, 11, 4⟩,
    some "open /srv/app/0b5e7c1a-6f0d-4c56-9d55-3f1f6f0a2b9e.pdf: permission denied",
    some "remove 0b5e7c1a-6f0d-4c56-9d55-3f1f6f0a2b9e.pdf: no such file or directory"⟩

/-- A valid request when the working directory cannot be obtained. -/
def getwdFails : Env :=
  ⟨"POST", "0b5e7c1a-6f0d-4c56-9d55-3f1f6f0a2b9e", .ok widgetInvoice,
    .error "getwd: no such file or directory", ⟨2026, 11, 4⟩, none, none⟩

/-- A valid request on which every step succeeds. -/
def goodRequest : Env :=
  ⟨"POST", "0b5e7c1a-6f0d-4c56-9d55-3f1f6f0a2b9e", .ok widgetInvoice, .ok "/srv/app",
    ⟨2026, 11, 4⟩, none, none⟩

/-- A valid request to a process started in the directory `/b` with the environment
variable `PWD` set to `/a/link/..`, where `/a/link` is a symbolic link to `/b/c`:
`os.Getwd` hands back the value of `PWD`, which names the working directory. -/
def symlinkedDir : Env :=
  ⟨"POST", "0b5e7c1a-6f0d-4c56-9d55-3f1f6f0a2b9e", .ok widgetInvoice, .ok "/a/link/..",
    ⟨2026, 11, 4⟩, none, none⟩

/-- A preflight request. -/
def preflight : Env :=
  ⟨"OPTIONS", "", .error "EOF", .ok "/srv/app", ⟨2026, 11, 4⟩, none, none⟩

/-! ## Lemmas on digits -/

theorem digitChar_isDigit (d : Nat) (h : d < 10) :
    (Nat.digitChar d).isDigit = true ∧ (Nat.digitChar d).toNat - 48 = d := by
  interval_cases d <;> exact ⟨by decide, by decide⟩

theorem toDigitsCore_append (fuel : Nat) : ∀ (n : Nat) (ds : List Char),
    toDigitsCore fuel n ds = toDigitsCore fuel n [] ++ ds := by
  induction fuel with
  | zero => intro n ds; simp [toDigitsCore]
  | succ fuel ih =>
    intro n ds
    simp only [toDigitsCore]
    split
    · simp
    · rw [ih (n / 10) (Nat.digitChar (n % 10) :: ds), ih (n / 10) [Nat.digitChar (n % 10)]]
      simp

theorem toDigitsCore_fuel (f₁ : Nat) : ∀ (f₂ n : Nat) (ds : List Char), n < f₁ → n < f₂ →
    toDigitsCore f₁ n ds = toDigitsCore f₂ n ds := by
  induction f₁ with
  | zero => intro f₂ n ds h; omega
  | succ f₁ ih =>
    intro f₂ n ds h₁ h₂
    cases f₂ with
    | zero => omega
    | succ f₂ =>
      simp only [toDigitsCore]
      split
      · rfl
      · rename_i hne
        have : n / 10 < n := Nat.div_lt_self (by omega) (by decide)
        exact ih f₂ (n / 10) _ (by omega) (by omega)

theorem natDigits_small (n : Nat) (h : n < 10) : natDigits n = [Nat.digitChar n] := by
  have h0 : n / 10 = 0 := by omega
  have h1 : n % 10 = n := by omega
  simp [natDigits, toDigitsCore, h0, h1]

theorem natDigits_step (n : Nat) (h : 10 ≤ n) :
    natDigits n = natDigits (n / 10) ++ [Nat.digitChar (n % 10)] := by
  have h0 : n / 10 ≠ 0 := by omega
  have hlt : n / 10 < n := Nat.div_lt_self (by omega) (by decide)
  have e : toDigitsCore (n + 1) n [] = toDigitsCore n (n / 10) [Nat.digitChar (n % 10)] := by
    simp [toDigitsCore, h0]
  unfold natDigits
  rw [e, toDigitsCore_append, toDigitsCore_fuel n (n / 10 + 1) (n / 10) [] hlt (by omega)]

theorem parseDigits_append (xs ys : List Char) : ∀ acc : Nat,
    parseDigits (xs ++ ys) acc = (parseDigits xs acc).bind (parseDigits ys) := by
  induction xs with
  | nil => intro acc; simp [parseDigits]
  | cons c cs ih =>
    intro acc
    simp only [List.cons_append, parseDigits]
    split
    · exact ih _
    · rfl

theorem parseDigits_natDigits (n : Nat) : parseDigits (natDigits n) 0 = some n := by
  induction n using Nat.strong_induction_on with
  | _ n ih =>
    by_cases h : n < 10
    · rw [natDigits_small n h]
      simp [parseDigits, digitChar_isDigit n h]
    · rw [natDigits_step n (by omega), parseDigits_append, ih (n / 10) (by omega)]
      simp only [Option.some_bind, parseDigits, (digitChar_isDigit (n % 10) (by omega)).1,
        (digitChar_isDigit (n % 10) (by omega)).2, if_true]
      congr 1
      omega

theorem natDigits_ne_nil (n : Nat) : natDigits n ≠ [] := by
  by_cases h : n < 10
  · rw [natDigits_small n h]; simp
  · rw [natDigits_step n (by omega)]; simp

theorem natDigits_isDigit (n : Nat) : ∀ c ∈ natDigits n, c.isDigit = true := by
  induction n using Nat.strong_induction_on with
  | _ n ih =>
    by_cases h : n < 10
    · rw [natDigits_small n h]
      simp [digitChar_isDigit n h]
    · rw [natDigits_step n (by omega)]
      intro c hc
      rcases List.mem_append.1 hc with hc | hc
      · exact ih (n / 10) (by omega) c hc
      · simp only [List.mem_singleton] at hc
        rw [hc]
        exact (digitChar_isDigit (n % 10) (by omega)).1

theorem parseNat_natDigits (n : Nat) : parseNat (natDigits n) = some n := by
  simp [parseNat, natDigits_ne_nil, parseDigits_natDigits]

theorem isDigit_ne_point (c : Char) (h : c.isDigit = true) : c ≠ '.' := by
  rintro rfl
  revert h
  decide

theorem isDigit_ne_minus (c : Char) (h : c.isDigit = true) : c ≠ '-' := by
  rintro rfl
  revert h
  decide

theorem natDigits_head_ne_minus (n : Nat) (rest : List Char) :
    (natDigits n ++ rest).head? ≠ some '-' := by
  cases hd : natDigits n with
  | nil => exact absurd hd (natDigits_ne_nil n)
  | cons c cs =>
    have hc : c.isDigit = true := natDigits_isDigit n c (by rw [hd]; simp)
    simp only [List.cons_append, List.head?_cons, ne_eq, Option.some.injEq]
    exact isDigit_ne_minus c hc

theorem parseInt_sprintfD (q : Int) : parseInt (sprintfD q) = some q := by
  unfold parseInt sprintfD
  by_cases h : q < 0
  · simp only [h, if_true, List.singleton_append, List.head?_cons, List.tail_cons,
      parseNat_natDigits, Option.map_some']
    rw [Int.ofNat_natAbs_of_nonpos (by omega), neg_neg]
  · have hh := natDigits_head_ne_minus q.natAbs []
    simp only [List.append_nil] at hh
    simp only [h, if_false, List.nil_append, hh, parseNat_natDigits, Option.map_some']
    rw [Int.natAbs_of_nonneg (by omega)]

theorem roundHalfEven_near (a b : Nat) (hb : 0 < b) :
    |(roundHalfEven a b : ℚ) - (a : ℚ) / b| ≤ 1 / 2 := by
  have hbq : (0 : ℚ) < b := by exact_mod_cast hb
  have hdm : (a : ℚ) = b * (a / b : ℕ) + (a % b : ℕ) := by exact_mod_cast (Nat.div_add_mod a b).symm
  have hr : ((a % b : ℕ) : ℚ) < b := by exact_mod_cast Nat.mod_lt a hb
  have hq : (a : ℚ) / b = (a / b : ℕ) + ((a % b : ℕ) : ℚ) / b := by
    rw [hdm]; field_simp; ring
  have hu0 : (0 : ℚ) ≤ ((a % b : ℕ) : ℚ) / b := div_nonneg (by positivity) hbq.le
  have hu1 : ((a % b : ℕ) : ℚ) / b ≤ 1 := (div_le_one hbq).2 hr.le
  rw [hq, abs_le]
  unfold roundHalfEven
  simp only
  split_ifs with h1 h2 h3
  · have h : (2 * (a % b : ℕ) : ℚ) < b := by exact_mod_cast h1
    have : ((a % b : ℕ) : ℚ) / b ≤ 1 / 2 := by rw [div_le_iff₀ hbq]; linarith
    constructor <;> linarith
  · have h : (b : ℚ) < 2 * (a % b : ℕ) := by exact_mod_cast h2
    have : 1 / 2 ≤ ((a % b : ℕ) : ℚ) / b := by rw [le_div_iff₀ hbq]; linarith
    push_cast
    constructor <;> linarith
  · have h : (b : ℚ) = 2 * (a % b : ℕ) := by
      have : b = 2 * (a % b) := by omega
      exact_mod_cast this
    have : ((a % b : ℕ) : ℚ) / b = 1 / 2 := by rw [div_eq_iff hbq.ne']; linarith
    constructor <;> linarith
  · have h : (b : ℚ) = 2 * (a % b : ℕ) := by
      have : b = 2 * (a % b) := by omega
      exact_mod_cast this
    have : ((a % b : ℕ) : ℚ) / b = 1 / 2 := by rw [div_eq_iff hbq.ne']; linarith
    push_cast
    constructor <;> linarith

theorem hundredths_near (x : Float64) :
    |(if x.neg then -1 else 1) * ((hundredths x : ℚ) / 100) - x.toRat| ≤ 1 / 200 := by
  obtain ⟨neg, mant, exp⟩ := x
  have key : ∀ s : ℚ, |s| = 1 → ∀ u v : ℚ, |u - 100 * v| ≤ 1 / 2 →
      |s * (u / 100) - s * v| ≤ 1 / 200 := by
    intro s hs u v h
    have e : s * (u / 100) - s * v = s * ((u - 100 * v) / 100) := by ring
    rw [e, abs_mul, hs, one_mul, abs_div]
    have : |(100 : ℚ)| = 100 := abs_of_pos (by norm_num)
    rw [this, div_le_iff₀ (by norm_num)]
    linarith
  have hs : |(if neg = true then (-1 : ℚ) else 1)| = 1 := by
    cases neg <;> simp
  cases exp with
  | ofNat k =>
    apply key _ hs
    simp only [hundredths]
    push_cast
    have e : (mant : ℚ) * 100 * 2 ^ k - 100 * (mant * 2 ^ k) = 0 := by ring
    rw [e]
    norm_num
  | negSucc k =>
    apply key _ hs
    simp only [hundredths]
    have h := roundHalfEven_near (mant * 100) (2 ^ (k + 1)) (by positivity)
    have e : ((mant * 100 : ℕ) : ℚ) / ((2 ^ (k + 1) : ℕ) : ℚ) = 100 * ((mant : ℚ) / 2 ^ (k + 1)) := by
      push_cast; ring
    rw [e] at h
    exact h


theorem sprintfF2_data (x : Float64) :
    (sprintfF2 x).data = (if x.neg then ['-'] else []) ++ natDigits (hundredths x / 100) ++
      ['.', Nat.digitChar (hundredths x % 100 / 10), Nat.digitChar (hundredths x % 10)] := rfl

theorem parseNat_two (h : Nat) :
    parseNat [Nat.digitChar (h % 100 / 10), Nat.digitChar (h % 10)] = some (h % 100) := by
  have h1 := digitChar_isDigit (h % 100 / 10) (by omega)
  have h2 := digitChar_isDigit (h % 10) (by omega)
  simp only [parseNat, parseDigits, h1.1, h1.2, h2.1, h2.2, if_true]
  simp only [List.cons_ne_nil, if_false, Option.some.injEq]
  omega

theorem takeWhile_digits (n : Nat) (rest : List Char) :
    (natDigits n ++ '.' :: rest).takeWhile (fun c => c ≠ '.') = natDigits n := by
  rw [List.takeWhile_append_of_pos]
  · simp
  · intro c hc
    simpa using isDigit_ne_point c (natDigits_isDigit n c hc)

theorem dropWhile_digits (n : Nat) (rest : List Char) :
    (natDigits n ++ '.' :: rest).dropWhile (fun c => c ≠ '.') = '.' :: rest := by
  rw [List.dropWhile_append_of_pos]
  · simp
  · intro c hc
    simpa using isDigit_ne_point c (natDigits_isDigit n c hc)

theorem decimalValue_sprintfF2 (x : Float64) :
    decimalValue (sprintfF2 x) =
      some ((if x.neg then -1 else 1) * ((hundredths x : ℚ) / 100)) := by
  have hv : ((hundredths x / 100 : ℕ) : ℚ) + ((hundredths x % 100 : ℕ) : ℚ) / 10 ^ 2 =
      (hundredths x : ℚ) / 100 := by
    have e : (hundredths x : ℚ) = 100 * (hundredths x / 100 : ℕ) + (hundredths x % 100 : ℕ) := by
      exact_mod_cast (Nat.div_add_mod (hundredths x) 100).symm
    rw [e]
    ring
  unfold decimalValue
  rw [sprintfF2_data]
  cases hn : x.neg
  · have hh := natDigits_head_ne_minus (hundredths x / 100)
      ['.', Nat.digitChar (hundredths x % 100 / 10), Nat.digitChar (hundredths x % 10)]
    simp only [Bool.false_eq_true, if_false, List.nil_append, hh, decide_False,
      takeWhile_digits, dropWhile_digits, parseNat_natDigits, parseNat_two, List.length_cons,
      List.length_nil]
    rw [← hv]
  · simp only [if_true, eq_self, List.singleton_append, List.nil_append, List.cons_append, List.head?_cons, decide_True,
      List.tail_cons, takeWhile_digits, dropWhile_digits, parseNat_natDigits, parseNat_two,
      List.length_cons, List.length_nil]
    rw [← hv]

/-! ## Lemmas on the call sequence -/

theorem addInvoiceItem_calls (pdf : Fpdf) (r : RowData) :
    (addInvoiceItem pdf r.Name r.Quantity r.Rate r.Amount).calls = pdf.calls ++ rowCalls r := by
  simp [addInvoiceItem, Fpdf.call, rowCalls]

theorem foldl_addInvoiceItem_calls (rows : List RowData) : ∀ pdf : Fpdf,
    (rows.foldl (fun pdf row => addInvoiceItem pdf row.Name row.Quantity row.Rate row.Amount)
      pdf).calls = pdf.calls ++ rows.flatMap rowCalls := by
  induction rows with
  | nil => intro pdf; simp
  | cons r rs ih =>
    intro pdf
    rw [List.foldl_cons, ih, addInvoiceItem_calls]
    simp

theorem call_calls (pdf : Fpdf) (c : Call) : (pdf.call c).calls = pdf.calls ++ [c] := rfl

theorem ite_call (c : Prop) [Decidable c] (pdf : Fpdf) (a b : String) :
    (if c then pdf.call (.Cell 100 10 a) else pdf.call (.Cell 100 10 b)) =
      pdf.call (.Cell 100 10 (if c then a else b)) := by
  split <;> rfl

theorem append_ite (c : Prop) [Decidable c] (p a b : String) :
    (p ++ if c then a else b) = if c then p ++ a else p ++ b := by
  split <;> rfl

set_option maxHeartbeats 1000000 in
theorem renderInvoice_calls (currentDir : String) (now : Time) (d : InvoiceData) :
    (renderInvoice currentDir now d).calls =
      beforeRows now d ++ (d.Rows.flatMap rowCalls ++
        (totalsCalls d.SubTotal d.Discount d.Tax d.Total ++ notesCalls d.Note)) := by
  unfold renderInvoice beforeRows totalsCalls notesCalls percentLine tableHeader
  have e : "Due : " ++ "On Receipt" = "Due : On Receipt" := by decide
  cases d.Discount.neZero <;> cases d.Tax.neZero <;>
    simp only [ite_call, append_ite, e, if_true, if_false, Bool.false_eq_true, call_calls,
      foldl_addInvoiceItem_calls, Fpdf.New, List.append_assoc, List.cons_append,
      List.nil_append]

theorem beforeRows_length (now : Time) (d : InvoiceData) : (beforeRows now d).length = 37 := rfl

theorem rowCalls_length (r : RowData) : (rowCalls r).length = 5 := rfl

theorem flatMap_rowCalls_length (rows : List RowData) :
    (rows.flatMap rowCalls).length = 5 * rows.length := by
  induction rows with
  | nil => rfl
  | cons r rs ih => simp [List.flatMap_cons, ih, rowCalls_length]; omega

theorem neZero_iff (x : Float64) : x.neZero = true ↔ x.toRat ≠ 0 := by
  obtain ⟨neg, mant, exp⟩ := x
  cases exp <;> cases neg <;> simp [Float64.neZero, Float64.toRat]

theorem totalsBlock_renderInvoice (currentDir : String) (now : Time) (d : InvoiceData) :
    totalsBlock (renderInvoice currentDir now d).calls d.Rows.length =
      totalsCalls d.SubTotal d.Discount d.Tax d.Total := by
  have e : rowsStart + 5 * d.Rows.length =
      (beforeRows now d).length + ((d.Rows.flatMap rowCalls).length + 0) := by
    rw [flatMap_rowCalls_length]; rfl
  rw [totalsBlock, renderInvoice_calls, e, List.drop_append, List.drop_append, List.drop_zero]
  rw [List.takeWhile_append_of_pos]
  · simp [notesCalls]
  · intro c hc
    have hne : c ≠ Call.Ln 20 := by
      rintro rfl
      unfold totalsCalls percentLine at hc
      cases h1 : d.Discount.neZero <;> cases h2 : d.Tax.neZero <;> simp [h1, h2] at hc
    simpa using hne

theorem totalsLines_totalsCalls (a b c e : Float64) :
    totalsLines false none (totalsCalls a b c e) =
      [("SubTotal", "$" ++ sprintfF2 a)] ++
      (if b.neZero then [("Discount", sprintfF2 b ++ " %")] else []) ++
      (if c.neZero then [("Tax", sprintfF2 c ++ " %")] else []) ++
      [("Total", "$" ++ sprintfF2 e)] := by
  unfold totalsCalls percentLine
  cases b.neZero <;> cases c.neZero <;> simp [totalsLines]

theorem drop_rows (rest : List Call) : ∀ (rows : List RowData) (i : Nat) (h : i < rows.length),
    ((rows.flatMap rowCalls ++ rest).drop (5 * i)).take 5 = rowCalls (rows.get ⟨i, h⟩) := by
  intro rows
  induction rows with
  | nil => intro i h; simp at h
  | cons r rs ih =>
    intro i h
    cases i with
    | zero => simp [List.flatMap_cons, rowCalls]
    | succ j =>
      have e : 5 * (j + 1) = (rowCalls r).length + 5 * j := by rw [rowCalls_length]; omega
      rw [List.flatMap_cons, List.append_assoc, e, List.drop_append]
      exact ih j (by simpa using h)

theorem filter_isFilled_rows (rows : List RowData) :
    (rows.flatMap rowCalls).filter Call.isFilled = [] := by
  induction rows with
  | nil => rfl
  | cons r rs ih => simp [List.flatMap_cons, ih, rowCalls, Call.isFilled]

theorem filter_isFilled_after (d : InvoiceData) :
    (totalsCalls d.SubTotal d.Discount d.Tax d.Total ++ notesCalls d.Note).filter Call.isFilled
      = [] := by
  unfold totalsCalls notesCalls percentLine
  cases d.Discount.neZero <;> cases d.Tax.neZero <;> simp [Call.isFilled]

theorem totalsCalls_take (a b c e : Float64) (rest : List Call) :
    (totalsCalls a b c e ++ rest).take 4 =
      [.Ln 10, .Cell 120 10 "", .SetFont "Outfit" "B" 12,
       .CellFormat 40 10 "SubTotal" "" 0 "" false 0 ""] := by
  simp [totalsCalls]

theorem twoDecimals_sprintfF2 (x : Float64) : TwoDecimals (sprintfF2 x) := by
  refine ⟨if x.neg then ['-'] else [], natDigits (hundredths x / 100),
    Nat.digitChar (hundredths x % 100 / 10), Nat.digitChar (hundredths x % 10),
    sprintfF2_data x, ?_, natDigits_ne_nil _, natDigits_isDigit _,
    (digitChar_isDigit _ (by omega)).1, (digitChar_isDigit _ (by omega)).1⟩
  cases x.neg <;> simp

theorem lines_renderInvoice (currentDir : String) (now : Time) (d : InvoiceData) :
    totalsLines false none (totalsBlock (renderInvoice currentDir now d).calls d.Rows.length) =
      [("SubTotal", "$" ++ sprintfF2 d.SubTotal)] ++
      (if d.Discount.neZero then [("Discount", sprintfF2 d.Discount ++ " %")] else []) ++
      (if d.Tax.neZero then [("Tax", sprintfF2 d.Tax ++ " %")] else []) ++
      [("Total", "$" ++ sprintfF2 d.Total)] := by
  rw [totalsBlock_renderInvoice, totalsLines_totalsCalls]

theorem natDigits_two (n : Nat) (h₁ : 10 ≤ n) (h₂ : n < 100) :
    natDigits n = [Nat.digitChar (n / 10), Nat.digitChar (n % 10)] := by
  rw [natDigits_step n h₁, natDigits_small (n / 10) (by omega)]
  rfl

theorem natDigits_three (n : Nat) (h₁ : 100 ≤ n) (h₂ : n < 1000) :
    natDigits n = [Nat.digitChar (n / 100), Nat.digitChar (n / 10 % 10),
      Nat.digitChar (n % 10)] := by
  rw [natDigits_step n (by omega), natDigits_two (n / 10) (by omega) (by omega)]
  have e : n / 10 / 10 = n / 100 := by omega
  rw [e]
  rfl

theorem natDigits_four (n : Nat) (h₁ : 1000 ≤ n) (h₂ : n < 10000) :
    natDigits n = [Nat.digitChar (n / 1000), Nat.digitChar (n / 100 % 10),
      Nat.digitChar (n / 10 % 10), Nat.digitChar (n % 10)] := by
  rw [natDigits_step n (by omega), natDigits_three (n / 10) (by omega) (by omega)]
  have e₁ : n / 10 / 100 = n / 1000 := by omega
  have e₂ : n / 10 / 10 % 10 = n / 100 % 10 := by omega
  rw [e₁, e₂]
  rfl

theorem appendInt_two (n : Nat) (h : n < 100) :
    appendInt n 2 = [Nat.digitChar (n / 10), Nat.digitChar (n % 10)] := by
  unfold appendInt
  by_cases h₁ : n < 10
  · have e₁ : n / 10 = 0 := by omega
    have e₂ : n % 10 = n := by omega
    rw [natDigits_small n h₁, e₁, e₂]
    rfl
  · rw [natDigits_two n (by omega) h]
    rfl

theorem appendInt_four (n : Nat) (h : n < 10000) :
    appendInt n 4 = [Nat.digitChar (n / 1000), Nat.digitChar (n / 100 % 10),
      Nat.digitChar (n / 10 % 10), Nat.digitChar (n % 10)] := by
  unfold appendInt
  by_cases h₁ : n < 10
  · have e₁ : n / 1000 = 0 := by omega
    have e₂ : n / 100 % 10 = 0 := by omega
    have e₃ : n / 10 % 10 = 0 := by omega
    have e₄ : n % 10 = n := by omega
    rw [natDigits_small n h₁, e₁, e₂, e₃, e₄]
    rfl
  · by_cases h₂ : n < 100
    · have e₁ : n / 1000 = 0 := by omega
      have e₂ : n / 100 % 10 = 0 := by omega
      have e₃ : n / 10 % 10 = n / 10 := by omega
      rw [natDigits_two n (by omega) h₂, e₁, e₂, e₃]
      rfl
    · by_cases h₃ : n < 1000
      · have e₁ : n / 1000 = 0 := by omega
        have e₂ : n / 100 % 10 = n / 100 := by omega
        rw [natDigits_three n (by omega) h₃, e₁, e₂]
        rfl
      · rw [natDigits_four n (by omega) h]
        rfl

theorem splitSlash_of_not_mem (l : List Char) (h : '/' ∉ l) : splitSlash l = [l] := by
  induction l with
  | nil => rfl
  | cons c cs ih =>
    have hc : c ≠ '/' := fun e => h (by simp [e])
    have hcs : '/' ∉ cs := fun e => h (by simp [e])
    simp [splitSlash, hc, ih hcs]

theorem Clean_fileName (name : String) (h : '/' ∉ name.data) (hlen : 3 ≤ name.data.length) :
    Clean name = name := by
  have hne : name.data ≠ [] := by
    intro e; rw [e] at hlen; simp at hlen
  have h1 : name.data ≠ ['.'] := by
    intro e; rw [e] at hlen; simp at hlen
  have h2 : name.data ≠ ['.', '.'] := by
    intro e; rw [e] at hlen; simp at hlen
  have hroot : name.data.head? ≠ some '/' := by
    intro e
    cases hd : name.data with
    | nil => exact hne hd
    | cons c cs =>
      rw [hd] at e h
      simp only [List.head?_cons, Option.some.injEq] at e
      exact h (by simp [e])
  unfold Clean
  simp [splitSlash_of_not_mem _ h, cleanStep, hne, h1, h2, hroot, joinSlash]

theorem pdfName_data (fileID : String) :
    (fileID ++ ".pdf").data = fileID.data ++ ['.', 'p', 'd', 'f'] := by
  rw [String.data_append]

theorem Join_pdfName (fileID : String) (h : '/' ∉ fileID.data) :
    Join [fileID ++ ".pdf"] = fileID ++ ".pdf" := by
  have hd := pdfName_data fileID
  have hne : fileID ++ ".pdf" ≠ "" := by
    intro e
    have := congrArg String.data e
    rw [hd] at this
    simp at this
  have hns : '/' ∉ (fileID ++ ".pdf").data := by
    rw [hd]
    simp [h]
  have hlen : 3 ≤ (fileID ++ ".pdf").data.length := by
    rw [hd]; simp
  simp only [Join, List.filter, hne, ne_eq, not_false_eq_true, decide_True,
    String.intercalate, String.intercalate.go]
  exact Clean_fileName _ hns hlen

theorem splitSlash_ne_nil (l : List Char) : splitSlash l ≠ [] := by
  cases l with
  | nil => simp [splitSlash]
  | cons c cs =>
    unfold splitSlash
    split
    · simp
    · split <;> simp

theorem splitSlash_append (a b : List Char) :
    splitSlash (a ++ '/' :: b) = splitSlash a ++ splitSlash b := by
  induction a with
  | nil => simp [splitSlash]
  | cons c cs ih =>
    by_cases hc : c = '/'
    · simp [splitSlash, hc, ih]
    · cases hs : splitSlash cs with
      | nil => exact absurd hs (splitSlash_ne_nil cs)
      | cons x xs =>
        simp [splitSlash, hc, ih, hs]

theorem joinSlash_concat (xs : List (List Char)) (n : List Char) (h : xs ≠ []) :
    joinSlash (xs ++ [n]) = joinSlash xs ++ '/' :: n := by
  induction xs with
  | nil => exact absurd rfl h
  | cons x rest ih =>
    cases rest with
    | nil => simp [joinSlash]
    | cons y ys =>
      have := ih (by simp)
      simp only [List.cons_append] at this
      show x ++ '/' :: joinSlash (y :: (ys ++ [n])) = (x ++ '/' :: joinSlash (y :: ys)) ++ '/' :: n
      rw [this]
      simp

theorem cleanStep_name (rooted : Bool) (stack : List (List Char)) (n : List Char)
    (hlen : 3 ≤ n.length) : cleanStep rooted stack n = n :: stack := by
  have hne : n ≠ [] := by
    intro e; rw [e] at hlen; simp at hlen
  have h1 : n ≠ ['.'] := by
    intro e; rw [e] at hlen; simp at hlen
  have h2 : n ≠ ['.', '.'] := by
    intro e; rw [e] at hlen; simp at hlen
  simp [cleanStep, hne, h1, h2]

theorem Clean_dir_name (dir name : String) (habs : IsAbs dir = true) (hclean : Clean dir = dir)
    (hroot : dir ≠ "/") (hs : '/' ∉ name.data) (hlen : 3 ≤ name.data.length) :
    Clean (dir ++ "/" ++ name) = dir ++ "/" ++ name := by
  have hhead : dir.data.head? = some '/' := by simpa [IsAbs] using habs
  have hdata : (dir ++ "/" ++ name).data = dir.data ++ '/' :: name.data := by
    simp [String.data_append]
  have hhead2 : (dir.data ++ '/' :: name.data).head? = some '/' := by
    cases hd : dir.data with
    | nil => rw [hd] at hhead; simp at hhead
    | cons c cs => rw [hd] at hhead; simpa using hhead
  -- the stack of `dir`
  have hc : dir.data =
      '/' :: joinSlash ((splitSlash dir.data).foldl (cleanStep true) []).reverse := by
    have h := congrArg String.data hclean
    unfold Clean at h
    simp only [hhead, decide_True, if_true] at h
    exact h.symm
  have hS : (splitSlash dir.data).foldl (cleanStep true) [] ≠ [] := by
    intro e
    rw [e] at hc
    apply hroot
    exact String.ext hc
  apply String.ext
  rw [hdata]
  unfold Clean
  simp only [hdata, hhead2, decide_True, if_true, splitSlash_append,
    splitSlash_of_not_mem _ hs, List.foldl_append, List.foldl_cons, List.foldl_nil,
    cleanStep_name _ _ _ hlen, List.reverse_cons]
  rw [joinSlash_concat _ _ (by simpa using hS)]
  conv_rhs => rw [hc]
  simp

theorem Clean_root_name (name : String) (hs : '/' ∉ name.data) (hlen : 3 ≤ name.data.length) :
    Clean ("/" ++ "/" ++ name) = "/" ++ name := by
  apply String.ext
  have hdata : ("/" ++ "/" ++ name).data = '/' :: '/' :: name.data := by
    simp [String.data_append]
  have hne : name.data ≠ [] := by
    intro e; rw [e] at hlen; simp at hlen
  have h1 : name.data ≠ ['.'] := by
    intro e; rw [e] at hlen; simp at hlen
  have h2 : name.data ≠ ['.', '.'] := by
    intro e; rw [e] at hlen; simp at hlen
  unfold Clean
  simp [hdata, splitSlash, splitSlash_of_not_mem _ hs, cleanStep, hne, h1, h2,
    joinSlash, String.data_append]


theorem pdfName_facts (fileID : String) (h : '/' ∉ fileID.data) :
    fileID ++ ".pdf" ≠ "" ∧ '/' ∉ (fileID ++ ".pdf").data ∧
      3 ≤ (fileID ++ ".pdf").data.length := by
  have hd := pdfName_data fileID
  refine ⟨?_, ?_, ?_⟩
  · intro e
    have := congrArg String.data e
    rw [hd] at this
    simp at this
  · rw [hd]; simp [h]
  · rw [hd]; simp

theorem Join_dir_pdfName (dir fileID : String) (habs : IsAbs dir = true)
    (hclean : Clean dir = dir) (hid : '/' ∉ fileID.data) :
    Join [dir, fileID ++ ".pdf"] = (if dir = "/" then "/" else dir ++ "/") ++ (fileID ++ ".pdf") := by
  obtain ⟨hne, hs, hlen⟩ := pdfName_facts fileID hid
  have hc : dir ≠ "" := by
    rintro rfl
    revert habs
    decide
  have hj : Join [dir, fileID ++ ".pdf"] = Clean (dir ++ "/" ++ (fileID ++ ".pdf")) := by
    simp only [Join, List.filter, hc, hne, ne_eq, not_false_eq_true, decide_True,
      String.intercalate, String.intercalate.go]
  rw [hj]
  by_cases hroot : dir = "/"
  · subst hroot
    simp only [if_true]
    exact Clean_root_name _ hs hlen
  · simp only [hroot, if_false]
    exact Clean_dir_name dir _ habs hclean hroot hs hlen

theorem walk_append (links : List (List String × List String)) (xs ys : List String) :
    ∀ cur : List String, walk links cur (xs ++ ys) = walk links (walk links cur xs) ys := by
  induction xs with
  | nil => intro cur; rfl
  | cons c cs ih =>
    intro cur
    simp only [List.cons_append, walk]
    split
    · exact ih _
    · split
      · exact ih _
      · split <;> exact ih _

theorem resolve_name (links : List (List String × List String)) (cwd : List String)
    (name : String) (hne : name ≠ "") (hs : '/' ∉ name.data) :
    resolve links cwd name = walk links cwd [name] := by
  have hrel : IsAbs name = false := by
    unfold IsAbs
    cases hd : name.data with
    | nil => exact absurd (String.ext hd) hne
    | cons c cs =>
      have : c ≠ '/' := fun e => hs (by rw [hd]; simp [e])
      simp [this]
  unfold resolve
  rw [hrel, splitSlash_of_not_mem _ hs]
  rfl

theorem resolve_dir_name (links : List (List String × List String)) (cwd : List String)
    (dir name : String) (habs : IsAbs dir = true) (hs : '/' ∉ name.data) :
    resolve links cwd (dir ++ "/" ++ name) = walk links (resolve links cwd dir) [name] := by
  have hdata : (dir ++ "/" ++ name).data = dir.data ++ '/' :: name.data := by
    simp [String.data_append]
  have habs2 : IsAbs (dir ++ "/" ++ name) = true := by
    unfold IsAbs at habs ⊢
    rw [hdata]
    cases hd : dir.data with
    | nil => rw [hd] at habs; simp at habs
    | cons c cs => rw [hd] at habs; simpa using habs
  unfold resolve
  rw [habs, habs2, hdata, splitSlash_append, splitSlash_of_not_mem _ hs, List.map_append,
    walk_append]
  rfl

theorem resolve_root_name (links : List (List String × List String)) (cwd : List String)
    (name : String) (hs : '/' ∉ name.data) :
    resolve links cwd ("/" ++ name) = walk links (resolve links cwd "/") [name] := by
  have hdata : ("/" ++ name).data = '/' :: name.data := by
    simp [String.data_append]
  have habs2 : IsAbs ("/" ++ name) = true := by
    unfold IsAbs
    rw [hdata]
    simp
  unfold resolve
  rw [habs2, hdata]
  simp [splitSlash, splitSlash_of_not_mem _ hs, walk, IsAbs]

theorem same_location (links : List (List String × List String)) (cwd : List String)
    (dir fileID : String) (habs : IsAbs dir = true) (hclean : Clean dir = dir)
    (hid : '/' ∉ fileID.data) (hcwd : resolve links cwd dir = cwd) :
    resolve links cwd (Join [dir, fileID ++ ".pdf"]) =
      resolve links cwd (Join [fileID ++ ".pdf"]) := by
  obtain ⟨hne, hs, hlen⟩ := pdfName_facts fileID hid
  rw [Join_dir_pdfName dir fileID habs hclean hid, Join_pdfName fileID hid,
    resolve_name links cwd _ hne hs]
  by_cases hroot : dir = "/"
  · subst hroot
    simp only [if_true]
    rw [resolve_root_name links cwd _ hs, hcwd]
  · simp only [hroot, if_false]
    rw [resolve_dir_name links cwd dir _ habs hs, hcwd]

theorem generateInvoice_options (env : Env) (hm : env.Method = "OPTIONS") :
    generateInvoice env = ⟨enableCors [] ++ [.WriteHeader 200], none⟩ := by
  simp [generateInvoice, hm]

theorem generateInvoice_decode_error (env : Env) (msg : String) (hm : env.Method ≠ "OPTIONS")
    (hd : env.decoded = .error msg) :
    generateInvoice env = ⟨enableCors [] ++ [.NewString, .Decode, .HttpError msg 400], none⟩ := by
  simp [generateInvoice, hm, hd]

theorem generateInvoice_getwd_error (env : Env) (d : InvoiceData) (msg : String)
    (hm : env.Method ≠ "OPTIONS") (hd : env.decoded = .ok d) (hw : env.getwd = .error msg) :
    generateInvoice env = ⟨enableCors [] ++ [.NewString, .Decode, .Getwd,
      .Println ("Error getting current working directory: " ++ msg)], none⟩ := by
  simp [generateInvoice, hm, hd, hw]

theorem generateInvoice_drawn (env : Env) (d : InvoiceData) (currentDir : String)
    (hm : env.Method ≠ "OPTIONS") (hd : env.decoded = .ok d) (hw : env.getwd = .ok currentDir) :
    generateInvoice env = ⟨enableCors [] ++ [.NewString, .Decode, .Getwd, .Println d.Note,
      .OutputFileAndClose (Join [currentDir, env.fileID ++ ".pdf"]),
      .Println (outputLine env.outputErr),
      .HeaderSet "Content-Type" "application/pdf",
      .HeaderSet "Content-Disposition" "attachment; filename=invoice.pdf",
      .ServeFile (Join [env.fileID ++ ".pdf"]), .Remove (Join [env.fileID ++ ".pdf"]),
      .Println (removeLine env.removeErr)], some (renderInvoice currentDir env.now d)⟩ := by
  unfold generateInvoice
  simp only [hm, hd, hw, if_false]
  rcases env.outputErr with _ | _ <;> rcases env.removeErr with _ | _ <;>
    simp [enableCors, outputLine, removeLine]

/-! ## The claims -/

/-- Claim C1.  The totals block is, call by call: a line advance, the `SubTotal` line,
the `Discount` line exactly when the discount is not zero, the `Tax` line exactly when
the tax is not zero, and the `Total` line.  The cells drawn in bold in it, the labels,
are therefore `SubTotal`, `Discount` (when not zero), `Tax` (when not zero), `Total`,
in this order and no other; so are the labels of its lines.  A negative value is not
zero, so it is shown, and with both at zero only the `SubTotal` and `Total` lines are
drawn.  After the block nothing is drawn but the notes. -/
theorem totals_labels (currentDir : String) (now : Time) (d : InvoiceData) :
    totalsBlock (renderInvoice currentDir now d).calls d.Rows.length =
      [.Ln 10, .Cell 120 10 "", .SetFont "Outfit" "B" 12,
       .CellFormat 40 10 "SubTotal" "" 0 "" false 0 "", .SetFont "Outfit" "" 12,
       .CellFormat 40 10 ("$" ++ sprintfF2 d.SubTotal) "" 0 "" false 0 "", .Ln 10] ++
      (if d.Discount.toRat ≠ 0 then
        [.Cell 120 10 "", .SetFont "Outfit" "B" 12,
         .CellFormat 40 10 "Discount" "" 0 "" false 0 "", .SetFont "Outfit" "" 12,
         .CellFormat 40 10 (sprintfF2 d.Discount ++ " %") "" 0 "" false 0 "", .Ln 10]
       else []) ++
      (if d.Tax.toRat ≠ 0 then
        [.Cell 120 10 "", .SetFont "Outfit" "B" 12,
         .CellFormat 40 10 "Tax" "" 0 "" false 0 "", .SetFont "Outfit" "" 12,
         .CellFormat 40 10 (sprintfF2 d.Tax ++ " %") "" 0 "" false 0 "", .Ln 10]
       else []) ++
      [.Cell 120 10 "", .SetFont "Outfit" "B" 12,
       .CellFormat 40 10 "Total" "" 0 "" false 0 "", .SetFont "Outfit" "" 12,
       .CellFormat 40 10 ("$" ++ sprintfF2 d.Total) "" 0 "" false 0 ""] ∧
    labelsOf false (totalsBlock (renderInvoice currentDir now d).calls d.Rows.length) =
      ["SubTotal"] ++ (if d.Discount.toRat ≠ 0 then ["Discount"] else []) ++
        (if d.Tax.toRat ≠ 0 then ["Tax"] else []) ++ ["Total"] ∧
    (totalsLines false none
        (totalsBlock (renderInvoice currentDir now d).calls d.Rows.length)).map Prod.fst =
      ["SubTotal"] ++ (if d.Discount.toRat ≠ 0 then ["Discount"] else []) ++
        (if d.Tax.toRat ≠ 0 then ["Tax"] else []) ++ ["Total"] ∧
    (renderInvoice currentDir now d).calls.drop (rowsStart + 5 * d.Rows.length) =
      totalsBlock (renderInvoice currentDir now d).calls d.Rows.length ++
        [.Ln 20, .SetFont "Outfit" "B" 12, .Cell 20 10 "Notes: ", .SetFont "Outfit" "" 12,
         .Cell 180 10 d.Note] := by
  rw [totalsBlock_renderInvoice]
  have h1 := neZero_iff d.Discount
  have h2 := neZero_iff d.Tax
  refine ⟨?_, ?_, ?_, ?_⟩
  · unfold totalsCalls percentLine
    cases h3 : d.Discount.neZero <;> cases h4 : d.Tax.neZero <;> simp_all
  · unfold totalsCalls percentLine
    cases h3 : d.Discount.neZero <;> cases h4 : d.Tax.neZero <;> simp_all [labelsOf]
  · rw [totalsLines_totalsCalls]
    cases h3 : d.Discount.neZero <;> cases h4 : d.Tax.neZero <;> simp_all
  · have e : rowsStart + 5 * d.Rows.length =
        (beforeRows now d).length + ((d.Rows.flatMap rowCalls).length + 0) := by
      rw [flatMap_rowCalls_length]; rfl
    rw [renderInvoice_calls, e, List.drop_append, List.drop_append, List.drop_zero]
    rfl

/-- Claim C2, as stated, fails: for a discount of 0.0625 the value cell of the
`Discount` line reads `0.06 %`, and that text is not a numeral denoting 0.0625
followed by ` %`. -/
theorem discount_cell_is_rounded :
    sixteenthDiscount.Discount.toRat = 1 / 16 ∧
    (totalsLines false none
      (totalsBlock (renderInvoice "/srv/app" ⟨2026, 11, 4⟩ sixteenthDiscount).calls
        sixteenthDiscount.Rows.length)).lookup "Discount" = some "0.06 %" ∧
    ¬ ShowsPercent "0.06 %" sixteenthDiscount.Discount := by
  have hv : sixteenthDiscount.Discount.toRat = 1 / 16 := by
    show (if false = true then (-1 : ℚ) else 1) * (((1 : ℕ) : ℚ) / 2 ^ (3 + 1)) = 1 / 16
    norm_num
  refine ⟨hv, by decide, ?_⟩
  rintro ⟨s, hs, hval⟩
  have hdata : s.data = ['0', '.', '0', '6'] := by
    have h := congrArg String.data hs
    rw [String.data_append] at h
    have h2 : ['0', '.', '0', '6'] ++ [' ', '%'] = s.data ++ [' ', '%'] := h
    exact (List.append_cancel_right h2).symm
  have hs2 : s = "0.06" := String.ext hdata
  subst hs2
  have hd : decimalValue "0.06" = some (3 / 50 : ℚ) := by
    simp [decimalValue, parseNat, parseDigits]
    norm_num
  rw [hd, hv] at hval
  norm_num at hval

/-- Claim C2, amended.  With a discount that is not zero the totals block has a
`Discount` line whose value cell is the discount printed with two decimals, followed
by ` %`; the same holds for the tax.  What is printed is a numeral with exactly two
decimals that denotes a number within 0.005 of the value printed. -/
theorem percent_cell_two_decimals (currentDir : String) (now : Time) (d : InvoiceData) :
    (d.Discount.toRat ≠ 0 →
      (totalsLines false none
        (totalsBlock (renderInvoice currentDir now d).calls d.Rows.length)).lookup "Discount" =
          some (sprintfF2 d.Discount ++ " %")) ∧
    (d.Tax.toRat ≠ 0 →
      (totalsLines false none
        (totalsBlock (renderInvoice currentDir now d).calls d.Rows.length)).lookup "Tax" =
          some (sprintfF2 d.Tax ++ " %")) ∧
    (∀ x : Float64, TwoDecimals (sprintfF2 x) ∧
      ∃ r : ℚ, decimalValue (sprintfF2 x) = some r ∧ |r - x.toRat| ≤ 1 / 200) := by
  rw [lines_renderInvoice]
  refine ⟨?_, ?_, ?_⟩
  · intro h
    rw [(neZero_iff d.Discount).2 h]
    simp [List.lookup]
  · intro h
    rw [(neZero_iff d.Tax).2 h]
    cases d.Discount.neZero <;> simp [List.lookup]
  · intro x
    exact ⟨twoDecimals_sprintfF2 x, _, decimalValue_sprintfF2 x, hundredths_near x⟩

/-- Claim C2, amended, at a discount of 10 and a tax of 7.5: the value cells read
`10.00 %` and `7.50 %`. -/
theorem percent_cell_two_decimals_witness :
    (totalsLines false none
      (totalsBlock (renderInvoice "/srv/app" ⟨2026, 11, 4⟩ tenDiscount).calls
        tenDiscount.Rows.length)).lookup "Discount" = some "10.00 %" ∧
    (totalsLines false none
      (totalsBlock (renderInvoice "/srv/app" ⟨2026, 11, 4⟩ tenDiscount).calls
        tenDiscount.Rows.length)).lookup "Tax" = some "7.50 %" :=
  have h10 : tenDiscount.Discount.toRat ≠ 0 := by
    show (if false = true then (-1 : ℚ) else 1) * (((10 : ℕ) : ℚ) * 2 ^ 0) ≠ 0
    norm_num
  have h75 : tenDiscount.Tax.toRat ≠ 0 := by
    show (if false = true then (-1 : ℚ) else 1) * (((15 : ℕ) : ℚ) / 2 ^ (0 + 1)) ≠ 0
    norm_num
  ⟨(percent_cell_two_decimals "/srv/app" ⟨2026, 11, 4⟩ tenDiscount).1 h10,
   (percent_cell_two_decimals "/srv/app" ⟨2026, 11, 4⟩ tenDiscount).2.1 h75⟩

/-- Claim C3.  The cells drawn with a filled background on the whole page are the
four header cells, once; they are calls 30 to 33, followed by a line advance and two
style calls; the five calls from position `37 + 5 * i` draw row `i` of the input (its
name, quantity, rate and amount); the totals block starts right after the last row;
with no rows the header is followed directly by the totals block. -/
theorem rows_drawn_in_input_order (currentDir : String) (now : Time) (d : InvoiceData) :
    (renderInvoice currentDir now d).calls.filter Call.isFilled = tableHeader ∧
    ((renderInvoice currentDir now d).calls.drop 30).take 7 =
      tableHeader ++ [.Ln 10, .SetFont "Outfit" "" 12, .SetTextColor 0 0 0] ∧
    (∀ (i : Nat) (h : i < d.Rows.length),
      ((renderInvoice currentDir now d).calls.drop (rowsStart + 5 * i)).take 5 =
        [.Cell 90 10 (d.Rows.get ⟨i, h⟩).Name,
         .Cell 30 10 (sprintfD (d.Rows.get ⟨i, h⟩).Quantity),
         .Cell 40 10 ("$" ++ sprintfF2 (d.Rows.get ⟨i, h⟩).Rate),
         .Cell 40 10 ("$" ++ sprintfF2 (d.Rows.get ⟨i, h⟩).Amount), .Ln 10]) ∧
    ((renderInvoice currentDir now d).calls.drop (rowsStart + 5 * d.Rows.length)).take 4 =
      [.Ln 10, .Cell 120 10 "", .SetFont "Outfit" "B" 12,
       .CellFormat 40 10 "SubTotal" "" 0 "" false 0 ""] ∧
    (d.Rows = [] →
      ((renderInvoice currentDir now d).calls.drop 30).take 11 =
        tableHeader ++ [.Ln 10, .SetFont "Outfit" "" 12, .SetTextColor 0 0 0, .Ln 10,
          .Cell 120 10 "", .SetFont "Outfit" "B" 12,
          .CellFormat 40 10 "SubTotal" "" 0 "" false 0 ""]) := by
  rw [renderInvoice_calls]
  refine ⟨?_, ?_, ?_, ?_, ?_⟩
  · rw [List.filter_append, List.filter_append, filter_isFilled_rows, filter_isFilled_after]
    simp [beforeRows, tableHeader, Call.isFilled]
  · simp [beforeRows, tableHeader]
  · intro i h
    have e : rowsStart + 5 * i = (beforeRows now d).length + 5 * i := rfl
    rw [e, List.drop_append]
    exact drop_rows _ d.Rows i h
  · have e : rowsStart + 5 * d.Rows.length =
        (beforeRows now d).length + ((d.Rows.flatMap rowCalls).length + 0) := by
      rw [flatMap_rowCalls_length]; rfl
    rw [e, List.drop_append, List.drop_append, List.drop_zero]
    exact totalsCalls_take _ _ _ _ _
  · intro h
    simp [h, beforeRows, tableHeader, totalsCalls]

/-- Claim C3 at the one-row invoice (row 0 is the Widget row) and at an invoice with
no rows (the header is followed by the totals block). -/
theorem rows_drawn_in_input_order_witness :
    ((renderInvoice "/srv/app" ⟨2026, 11, 4⟩ widgetInvoice).calls.drop 37).take 5 =
      [.Cell 90 10 "Widget", .Cell 30 10 "2", .Cell 40 10 "$5.00", .Cell 40 10 "$10.00",
       .Ln 10] ∧
    ((renderInvoice "/srv/app" ⟨2026, 11, 4⟩ noRows).calls.drop 30).take 11 =
      tableHeader ++ [.Ln 10, .SetFont "Outfit" "" 12, .SetTextColor 0 0 0, .Ln 10,
        .Cell 120 10 "", .SetFont "Outfit" "B" 12,
        .CellFormat 40 10 "SubTotal" "" 0 "" false 0 ""] :=
  ⟨(rows_drawn_in_input_order "/srv/app" ⟨2026, 11, 4⟩ widgetInvoice).2.2.1 0 Nat.zero_lt_one,
   (rows_drawn_in_input_order "/srv/app" ⟨2026, 11, 4⟩ noRows).2.2.2.2 rfl⟩

/-- Claim C4.  The issued line (call 10) reads `Issued : ` followed by `IssuedDate`
as given when that is not empty, and by the current date otherwise; the due line
(call 12) reads `Due : ` followed by `DueDate` as given when that is not empty, and by
`On Receipt` otherwise.  The current date is printed as four digits of the year, two
of the month and two of the day, separated by `-`. -/
theorem date_lines (currentDir : String) (now : Time) (d : InvoiceData) :
    (renderInvoice currentDir now d).calls[10]? =
      some (.Cell 100 10
        ("Issued : " ++ if d.IssuedDate ≠ "" then d.IssuedDate else now.Format)) ∧
    (renderInvoice currentDir now d).calls[12]? =
      some (.Cell 100 10 ("Due : " ++ if d.DueDate ≠ "" then d.DueDate else "On Receipt")) ∧
    (now.Year < 10000 → now.Month < 100 → now.Day < 100 →
      now.Format.data =
        [Nat.digitChar (now.Year / 1000), Nat.digitChar (now.Year / 100 % 10),
         Nat.digitChar (now.Year / 10 % 10), Nat.digitChar (now.Year % 10), '-',
         Nat.digitChar (now.Month / 10), Nat.digitChar (now.Month % 10), '-',
         Nat.digitChar (now.Day / 10), Nat.digitChar (now.Day % 10)]) := by
  rw [renderInvoice_calls]
  refine ⟨rfl, rfl, ?_⟩
  intro hy hm hd
  show appendInt now.Year 4 ++ ['-'] ++ appendInt now.Month 2 ++ ['-'] ++ appendInt now.Day 2 = _
  rw [appendInt_four _ hy, appendInt_two _ hm, appendInt_two _ hd]
  rfl

/-- Claim C4 on 9 March 2026: without dates the lines read `Issued : 2026-03-09` and
`Due : On Receipt`; with an issued date it is shown as given. -/
theorem date_lines_witness :
    (renderInvoice "/srv/app" ⟨2026, 3, 9⟩ widgetInvoice).calls[10]? =
      some (.Cell 100 10 "Issued : 2026-03-09") ∧
    (renderInvoice "/srv/app" ⟨2026, 3, 9⟩ widgetInvoice).calls[12]? =
      some (.Cell 100 10 "Due : On Receipt") ∧
    (renderInvoice "/srv/app" ⟨2026, 3, 9⟩ oddRows).calls[10]? =
      some (.Cell 100 10 "Issued : 2026-01-31") ∧
    (⟨2026, 3, 9⟩ : Time).Format.data = ['2', '0', '2', '6', '-', '0', '3', '-', '0', '9'] :=
  ⟨(date_lines "/srv/app" ⟨2026, 3, 9⟩ widgetInvoice).1,
   (date_lines "/srv/app" ⟨2026, 3, 9⟩ widgetInvoice).2.1,
   (date_lines "/srv/app" ⟨2026, 3, 9⟩ oddRows).1,
   (date_lines "/srv/app" ⟨2026, 3, 9⟩ widgetInvoice).2.2 (by decide) (by decide) (by decide)⟩

/-- Claim C5.  When the body does not decode, the handler sets the CORS headers,
asks for a file identifier, tries to decode and replies through `http.Error` with the
decode error and status 400: the status is 400, the body is the error message, no
document is drawn and no call is made on the file system. -/
theorem malformed_json_is_400 (env : Env) (msg : String) (hm : env.Method ≠ "OPTIONS")
    (hd : env.decoded = .error msg) :
    (generateInvoice env).events = enableCors [] ++ [.NewString, .Decode, .HttpError msg 400] ∧
    responseStatus (generateInvoice env).events = .explicit 400 ∧
    responseBody (generateInvoice env).events = [.errorText msg] ∧
    (generateInvoice env).pdf = none ∧
    fileOps (generateInvoice env).events = [] := by
  rw [generateInvoice_decode_error env msg hm hd]
  exact ⟨rfl, rfl, rfl, rfl, rfl⟩

/-- Claim C5 at a POST request whose body is cut short. -/
theorem malformed_json_is_400_witness :
    responseStatus (generateInvoice badBody).events = .explicit 400 ∧
    responseBody (generateInvoice badBody).events =
      [.errorText "unexpected end of JSON input"] ∧
    (generateInvoice badBody).pdf = none ∧
    fileOps (generateInvoice badBody).events = [] :=
  (malformed_json_is_400 badBody "unexpected end of JSON input" (by decide) rfl).2

/-- Claim C6 does not hold of the code.  When the output step fails the handler still
sets the PDF headers (the map it hands on holds `application/pdf`) and calls
`http.ServeFile` on the artifact path, so the status and the body are the ones
`http.ServeFile` picks; when the working directory cannot be obtained the
handler returns without writing, which `net/http` answers with `200 OK` and an empty
body.  The decode failure next to them does name an error status. -/
theorem failed_output_is_served :
    responseStatus (generateInvoice outputFails).events = .byServeFile ∧
    (responseHeader [] (generateInvoice outputFails).events).lookup "Content-Type" =
      some "application/pdf" ∧
    responseBody (generateInvoice outputFails).events =
      [.file "0b5e7c1a-6f0d-4c56-9d55-3f1f6f0a2b9e.pdf"] ∧
    responseStatus (generateInvoice getwdFails).events = .implicitOK ∧
    responseBody (generateInvoice getwdFails).events = [] ∧
    responseStatus (generateInvoice badBody).events = .explicit 400 := by
  decide

/-- Claim C7, as stated, fails: started in `/b` with `PWD=/a/link/..`, where `/a/link`
is a symbolic link to `/b/c`, the handler writes the document to
`/a/<fileID>.pdf`, a file of the directory `/a`, and serves and removes
`<fileID>.pdf`, a file of the working directory `/b`. -/
theorem written_path_leaves_working_directory :
    resolve [(["a", "link"], ["b", "c"])] ["b"] "/a/link/.." = ["b"] ∧
    fileOps (generateInvoice symlinkedDir).events =
      [.OutputFileAndClose "/a/0b5e7c1a-6f0d-4c56-9d55-3f1f6f0a2b9e.pdf",
       .ServeFile "0b5e7c1a-6f0d-4c56-9d55-3f1f6f0a2b9e.pdf",
       .Remove "0b5e7c1a-6f0d-4c56-9d55-3f1f6f0a2b9e.pdf"] ∧
    resolve [(["a", "link"], ["b", "c"])] ["b"]
      "/a/0b5e7c1a-6f0d-4c56-9d55-3f1f6f0a2b9e.pdf" =
        ["a", "0b5e7c1a-6f0d-4c56-9d55-3f1f6f0a2b9e.pdf"] ∧
    resolve [(["a", "link"], ["b", "c"])] ["b"] "0b5e7c1a-6f0d-4c56-9d55-3f1f6f0a2b9e.pdf" =
        ["b", "0b5e7c1a-6f0d-4c56-9d55-3f1f6f0a2b9e.pdf"] ∧
    resolve [(["a", "link"], ["b", "c"])] ["b"]
        "/a/0b5e7c1a-6f0d-4c56-9d55-3f1f6f0a2b9e.pdf" ≠
      resolve [(["a", "link"], ["b", "c"])] ["b"] "0b5e7c1a-6f0d-4c56-9d55-3f1f6f0a2b9e.pdf" := by
  decide

/-- Claim C7, amended.  On the path that gets past the decoding and `os.Getwd` the
handler makes exactly these calls after the three header sets: `uuid.NewString`, the
decoding, `os.Getwd`, the printing of the note, `OutputFileAndClose` on
`Join(currentDir, fileID + ".pdf")`, a printed line about its result, the two PDF
header sets, `http.ServeFile` on `Join(fileID + ".pdf")`, `os.Remove` on the same
path, and a printed line about the removal.  So the calls on the file system are the
output, the serving and the removal, in this order, whatever the output step
returned.  When the working directory is given as an absolute path in cleaned form
and the identifier has no slash, the path written is that directory, a slash and
`<fileID>.pdf`, the path served and removed is `<fileID>.pdf`, and in every file
system in which the former names the working directory both name the same location.
The result of the removal changes neither the status, nor the headers, nor the body,
nor the calls on the file system.  Every run, on any path, makes no call on the file
system or these three followed only by the line about the removal. -/
theorem artifact_calls_in_order (env : Env) (d : InvoiceData) (currentDir : String)
    (hm : env.Method ≠ "OPTIONS") (hd : env.decoded = .ok d) (hw : env.getwd = .ok currentDir) :
    (generateInvoice env).events =
      enableCors [] ++ [.NewString, .Decode, .Getwd, .Println d.Note,
        .OutputFileAndClose (Join [currentDir, env.fileID ++ ".pdf"]),
        .Println (outputLine env.outputErr),
        .HeaderSet "Content-Type" "application/pdf",
        .HeaderSet "Content-Disposition" "attachment; filename=invoice.pdf",
        .ServeFile (Join [env.fileID ++ ".pdf"]), .Remove (Join [env.fileID ++ ".pdf"]),
        .Println (removeLine env.removeErr)] ∧
    fileOps (generateInvoice env).events =
      [.OutputFileAndClose (Join [currentDir, env.fileID ++ ".pdf"]),
       .ServeFile (Join [env.fileID ++ ".pdf"]), .Remove (Join [env.fileID ++ ".pdf"])] ∧
    (IsAbs currentDir = true → Clean currentDir = currentDir → '/' ∉ env.fileID.data →
      Join [currentDir, env.fileID ++ ".pdf"] =
        (if currentDir = "/" then "/" else currentDir ++ "/") ++ (env.fileID ++ ".pdf") ∧
      Join [env.fileID ++ ".pdf"] = env.fileID ++ ".pdf" ∧
      ∀ (links : List (List String × List String)) (cwd : List String),
        resolve links cwd currentDir = cwd →
          resolve links cwd (Join [currentDir, env.fileID ++ ".pdf"]) =
            resolve links cwd (Join [env.fileID ++ ".pdf"])) ∧
    (∀ err : Option String,
      responseStatus (generateInvoice { env with removeErr := err }).events =
        responseStatus (generateInvoice env).events ∧
      responseHeader [] (generateInvoice { env with removeErr := err }).events =
        responseHeader [] (generateInvoice env).events ∧
      responseBody (generateInvoice { env with removeErr := err }).events =
        responseBody (generateInvoice env).events ∧
      fileOps (generateInvoice { env with removeErr := err }).events =
        fileOps (generateInvoice env).events) ∧
    (∀ run : Env, fileOps (generateInvoice run).events = [] ∨
      ∃ dir : String, run.getwd = .ok dir ∧
        fileOps (generateInvoice run).events =
          [.OutputFileAndClose (Join [dir, run.fileID ++ ".pdf"]),
           .ServeFile (Join [run.fileID ++ ".pdf"]), .Remove (Join [run.fileID ++ ".pdf"])] ∧
        (generateInvoice run).events.reverse.take 2 =
          [.Println (removeLine run.removeErr), .Remove (Join [run.fileID ++ ".pdf"])]) := by
  refine ⟨?_, ?_, ?_, ?_, ?_⟩
  · rw [generateInvoice_drawn env d currentDir hm hd hw]
  · rw [generateInvoice_drawn env d currentDir hm hd hw]
    rfl
  · intro habs hclean hid
    exact ⟨Join_dir_pdfName currentDir env.fileID habs hclean hid, Join_pdfName env.fileID hid,
      fun links cwd hcwd => same_location links cwd currentDir env.fileID habs hclean hid hcwd⟩
  · intro err
    obtain ⟨m, f, dec, gw, now, oe, re⟩ := env
    simp only at hm hd hw
    subst hd hw
    rw [generateInvoice_drawn ⟨m, f, _, _, now, oe, re⟩ d currentDir hm rfl rfl,
      generateInvoice_drawn ⟨m, f, _, _, now, oe, err⟩ d currentDir hm rfl rfl]
    exact ⟨rfl, rfl, rfl, rfl⟩
  · intro run
    by_cases hm' : run.Method = "OPTIONS"
    · left; rw [generateInvoice_options run hm']; rfl
    · rcases hd' : run.decoded with msg | d'
      · left; rw [generateInvoice_decode_error run msg hm' hd']; rfl
      · rcases hw' : run.getwd with msg | dir
        · left; rw [generateInvoice_getwd_error run d' msg hm' hd' hw']; rfl
        · right
          refine ⟨dir, rfl, ?_⟩
          rw [generateInvoice_drawn run d' dir hm' hd' hw']
          exact ⟨rfl, rfl⟩

/-- Claim C7, amended, at a request served from `/srv/app`, where `/srv` is a symbolic
link to `/mnt/data`: the document is written to `/srv/app/<fileID>.pdf`, then
`<fileID>.pdf` is served and removed; both name `/mnt/data/app/<fileID>.pdf`; a failed
removal leaves the body as it is. -/
theorem artifact_calls_in_order_witness :
    fileOps (generateInvoice goodRequest).events =
      [.OutputFileAndClose "/srv/app/0b5e7c1a-6f0d-4c56-9d55-3f1f6f0a2b9e.pdf",
       .ServeFile "0b5e7c1a-6f0d-4c56-9d55-3f1f6f0a2b9e.pdf",
       .Remove "0b5e7c1a-6f0d-4c56-9d55-3f1f6f0a2b9e.pdf"] ∧
    resolve [(["srv"], ["mnt", "data"])] ["mnt", "data", "app"]
        "/srv/app/0b5e7c1a-6f0d-4c56-9d55-3f1f6f0a2b9e.pdf" =
      resolve [(["srv"], ["mnt", "data"])] ["mnt", "data", "app"]
        "0b5e7c1a-6f0d-4c56-9d55-3f1f6f0a2b9e.pdf" ∧
    responseBody (generateInvoice { goodRequest with removeErr := some "busy" }).events =
      responseBody (generateInvoice goodRequest).events :=
  ⟨(artifact_calls_in_order goodRequest widgetInvoice "/srv/app" (by decide) rfl rfl).2.1,
   ((artifact_calls_in_order goodRequest widgetInvoice "/srv/app" (by decide) rfl rfl).2.2.1
      (by decide) (by decide) (by decide)).2.2 [(["srv"], ["mnt", "data"])]
      ["mnt", "data", "app"] (by decide),
   ((artifact_calls_in_order goodRequest widgetInvoice "/srv/app" (by decide) rfl rfl).2.2.2.1
      (some "busy")).2.2.1⟩

/-- Claim C8.  Two invoices that agree on `SubTotal`, `Discount`, `Tax` and `Total`
get the same totals block, whatever their rows, their other fields, the working
directory and the clock; the value cells of the `SubTotal` and `Total` lines are the
two fields printed as `$` and two decimals. -/
theorem totals_follow_caller_fields (dir₁ dir₂ : String) (now₁ now₂ : Time)
    (d₁ d₂ : InvoiceData) (hs : d₁.SubTotal = d₂.SubTotal) (hd : d₁.Discount = d₂.Discount)
    (ht : d₁.Tax = d₂.Tax) (hT : d₁.Total = d₂.Total) :
    totalsBlock (renderInvoice dir₁ now₁ d₁).calls d₁.Rows.length =
      totalsBlock (renderInvoice dir₂ now₂ d₂).calls d₂.Rows.length ∧
    (totalsLines false none
      (totalsBlock (renderInvoice dir₁ now₁ d₁).calls d₁.Rows.length)).lookup "SubTotal" =
        some ("$" ++ sprintfF2 d₁.SubTotal) ∧
    (totalsLines false none
      (totalsBlock (renderInvoice dir₁ now₁ d₁).calls d₁.Rows.length)).lookup "Total" =
        some ("$" ++ sprintfF2 d₁.Total) := by
  refine ⟨?_, ?_, ?_⟩
  · rw [totalsBlock_renderInvoice, totalsBlock_renderInvoice, hs, hd, ht, hT]
  · rw [lines_renderInvoice]
    simp [List.lookup]
  · rw [lines_renderInvoice]
    cases d₁.Discount.neZero <;> cases d₁.Tax.neZero <;> simp [List.lookup]

/-- Claim C8 at an invoice whose only row has the amount 999 for 2 items at 5 and a
subtotal of 10, against an invoice with the same totals and no rows. -/
theorem totals_follow_caller_fields_witness :
    totalsBlock (renderInvoice "/srv/app" ⟨2026, 11, 4⟩ oddRows).calls 1 =
      totalsBlock (renderInvoice "/tmp" ⟨1999, 12, 31⟩ noRows).calls 0 ∧
    (totalsLines false none
      (totalsBlock (renderInvoice "/srv/app" ⟨2026, 11, 4⟩ oddRows).calls 1)).lookup
        "SubTotal" = some "$10.00" ∧
    (totalsLines false none
      (totalsBlock (renderInvoice "/srv/app" ⟨2026, 11, 4⟩ oddRows).calls 1)).lookup
        "Total" = some "$10.00" :=
  totals_follow_caller_fields "/srv/app" "/tmp" ⟨2026, 11, 4⟩ ⟨1999, 12, 31⟩ oddRows noRows
    rfl rfl rfl rfl

/-- Claim C9.  Whatever the request and whatever the collaborators return, the
response is sent with the three CORS headers; an `OPTIONS` request gets the three
headers and `WriteHeader(200)` and nothing else: status 200, an empty body, no
decoding, no drawing, no call on the file system. -/
theorem cors_on_every_response (env : Env) :
    (responseHeader [] (generateInvoice env).events).lookup "Access-Control-Allow-Origin" =
      some "*" ∧
    (responseHeader [] (generateInvoice env).events).lookup "Access-Control-Allow-Methods" =
      some "GET, POST, OPTIONS" ∧
    (responseHeader [] (generateInvoice env).events).lookup "Access-Control-Allow-Headers" =
      some "Content-Type" ∧
    (env.Method = "OPTIONS" →
      (generateInvoice env).events = enableCors [] ++ [.WriteHeader 200] ∧
      responseStatus (generateInvoice env).events = .explicit 200 ∧
      responseBody (generateInvoice env).events = [] ∧
      (generateInvoice env).pdf = none ∧
      fileOps (generateInvoice env).events = []) := by
  by_cases hm : env.Method = "OPTIONS"
  · rw [generateInvoice_options env hm]
    exact ⟨rfl, rfl, rfl, fun _ => ⟨rfl, rfl, rfl, rfl, rfl⟩⟩
  · rcases hd : env.decoded with msg | d
    · rw [generateInvoice_decode_error env msg hm hd]
      exact ⟨rfl, rfl, rfl, fun h => absurd h hm⟩
    · rcases hw : env.getwd with msg | currentDir
      · rw [generateInvoice_getwd_error env d msg hm hd hw]
        exact ⟨rfl, rfl, rfl, fun h => absurd h hm⟩
      · rw [generateInvoice_drawn env d currentDir hm hd hw]
        exact ⟨rfl, rfl, rfl, fun h => absurd h hm⟩

/-- Claim C9 at a preflight request and at the four kinds of exit. -/
theorem cors_on_every_response_witness :
    ((generateInvoice preflight).events = enableCors [] ++ [.WriteHeader 200] ∧
      responseStatus (generateInvoice preflight).events = .explicit 200 ∧
      responseBody (generateInvoice preflight).events = [] ∧
      (generateInvoice preflight).pdf = none ∧
      fileOps (generateInvoice preflight).events = []) ∧
    (responseHeader [] (generateInvoice badBody).events).lookup
      "Access-Control-Allow-Origin" = some "*" ∧
    (responseHeader [] (generateInvoice getwdFails).events).lookup
      "Access-Control-Allow-Origin" = some "*" ∧
    (responseHeader [] (generateInvoice goodRequest).events).lookup
      "Access-Control-Allow-Origin" = some "*" :=
  ⟨(cors_on_every_response preflight).2.2.2 rfl, (cors_on_every_response badBody).1,
   (cors_on_every_response getwdFails).1, (cors_on_every_response goodRequest).1⟩

/-- Claim C10.  The function `addInvoiceItem` adds exactly five calls: four cells of
widths 90, 30, 40 and 40, the widths of the header cells, and a line advance of 10.
The first cell holds the name as given; the second the quantity in decimal digits
with a `-` in front when negative and nothing else, which reads back as the quantity;
the third and the fourth hold `$` followed by the rate and the amount as numerals with
exactly two decimals, each within 0.005 of the value printed.  The row Widget, 2, 5,
10 draws `Widget`, `2`, `$5.00`, `$10.00`. -/
theorem addInvoiceItem_draws_row (pdf : Fpdf) (item : String) (quantity : Int)
    (rate amount : Float64) :
    (addInvoiceItem pdf item quantity rate amount).calls =
      pdf.calls ++ [.Cell 90 10 item, .Cell 30 10 (sprintfD quantity),
        .Cell 40 10 ("$" ++ sprintfF2 rate), .Cell 40 10 ("$" ++ sprintfF2 amount), .Ln 10] ∧
    parseInt (sprintfD quantity) = some quantity ∧
    (∃ ds : List Char, ds ≠ [] ∧ (∀ c ∈ ds, c.isDigit = true) ∧
      (sprintfD quantity).data = if quantity < 0 then '-' :: ds else ds) ∧
    (TwoDecimals (sprintfF2 rate) ∧
      ∃ r : ℚ, decimalValue (sprintfF2 rate) = some r ∧ |r - rate.toRat| ≤ 1 / 200) ∧
    (TwoDecimals (sprintfF2 amount) ∧
      ∃ r : ℚ, decimalValue (sprintfF2 amount) = some r ∧ |r - amount.toRat| ≤ 1 / 200) ∧
    ((addInvoiceItem pdf item quantity rate amount).calls.drop pdf.calls.length).filterMap
        Call.width? = [90, 30, 40, 40] ∧
    tableHeader.filterMap Call.width? = [90, 30, 40, 40] ∧
    (addInvoiceItem (Fpdf.New "P" "mm" "A4" "") "Widget" 2 ⟨false, 5, 0⟩ ⟨false, 10, 0⟩).calls =
      [.Cell 90 10 "Widget", .Cell 30 10 "2", .Cell 40 10 "$5.00", .Cell 40 10 "$10.00",
        .Ln 10] := by
  have hcalls : (addInvoiceItem pdf item quantity rate amount).calls =
      pdf.calls ++ [.Cell 90 10 item, .Cell 30 10 (sprintfD quantity),
        .Cell 40 10 ("$" ++ sprintfF2 rate), .Cell 40 10 ("$" ++ sprintfF2 amount), .Ln 10] := by
    simp [addInvoiceItem, Fpdf.call]
  refine ⟨hcalls, parseInt_sprintfD quantity, ?_, ?_, ?_, ?_, by decide, by decide⟩
  · refine ⟨natDigits quantity.natAbs, natDigits_ne_nil _, natDigits_isDigit _, ?_⟩
    unfold sprintfD
    split <;> simp
  · exact ⟨twoDecimals_sprintfF2 rate, _, decimalValue_sprintfF2 rate, hundredths_near rate⟩
  · exact ⟨twoDecimals_sprintfF2 amount, _, decimalValue_sprintfF2 amount,
      hundredths_near amount⟩
  · rw [hcalls, List.drop_left]
    simp [Call.width?]

end Invoice
